import Mathlib

/-!
# evaluation-service: a shallow embedding of the evaluation pipeline

The Go sources embedded here are

* `internal/service/evaluation.go` (`ValidateRequest`, `ValidatePayloadSize`,
  `EvaluateRequest`, `parseEvaluationResult`),
* `internal/handler/evaluate.go` (`EvaluateHandler.Handle`, `sendErrorResponse`),
* `internal/client/openrouter.go` (`CallLLM`),
* `pkg/types/models.go` (the request and response records).

Conventions.  A Go `string` is a list of runes (`List Char`) or a Lean `String`;
only well-formed UTF-8 text is represented.  A Go `error` is an
`Option String` holding the error message (`none` is `nil`), or the error side
of an `Except String`.  A Go `int` is an `Int`; no arithmetic that could
overflow is performed on it.  A `float64` is the exact dyadic number it
stands for, next to the infinities and NaN, and a decimal text is rounded to
the nearest one as `strconv.ParseFloat` does.

What lies outside the process is an input of the functions that meet it: the
answer of the rate limiter (`rateLimiter.Allow()`) is an argument of `Handle`,
and the network of the judge client is a function from the prompt to the
outcome of the HTTP exchange.  The deadline of 25 seconds is not modelled; a
call that it cuts short ends, like any other transport error, in the error
outcome of the exchange.
-/

namespace EvalSvc

/-! ## Constants of `internal/service/evaluation.go` -/

/-- The constant `MaxPayloadSize = 1024 * 1024`. -/
def MaxPayloadSize : Int := 1024 * 1024

/-- The constant `DefaultMinPayloadSize = 1024`. -/
def DefaultMinPayloadSize : Int := 1024

/-- The constant `RequestsPerSecond = 100`. -/
def RequestsPerSecond : Int := 100

/-! ## Records of `pkg/types/models.go` -/

/-- The record `types.EvaluateRequest`. -/
structure EvaluateRequest where
  Input : String
  Output : String
  Criteria : String
  deriving DecidableEq, Repr

/-- The record `types.ErrorResponse`. -/
structure ErrorResponse where
  Error : String
  Code : Int
  Message : String
  deriving DecidableEq, Repr

/-- The part of `EvaluationService` that the embedded methods read: the
payload floor chosen at construction. -/
structure EvaluationService where
  minPayloadSize : Int
  deriving DecidableEq, Repr

/-! ## Validation -/

/-- The method `ValidateRequest`: the first empty field, in the order input,
output, criteria, yields its own error. -/
def ValidateRequest (req : EvaluateRequest) : Option String :=
  if req.Input = "" then some "input field is required"
  else if req.Output = "" then some "output field is required"
  else if req.Criteria = "" then some "criteria field is required"
  else none

/-- The message of `fmt.Errorf("payload size must be at least %d bytes", n)`. -/
def tooSmallMessage (n : Int) : String :=
  "payload size must be at least " ++ toString n ++ " bytes"

/-- The message of `fmt.Errorf("payload size exceeds maximum of %d bytes", n)`. -/
def tooLargeMessage (n : Int) : String :=
  "payload size exceeds maximum of " ++ toString n ++ " bytes"

/-- The method `ValidatePayloadSize`: the floor is tested before the ceiling. -/
def ValidatePayloadSize (s : EvaluationService) (payloadSize : Int) : Option String :=
  if payloadSize < s.minPayloadSize then some (tooSmallMessage s.minPayloadSize)
  else if payloadSize > MaxPayloadSize then some (tooLargeMessage MaxPayloadSize)
  else none

/-! ## The Go string functions used by the service

Each function below follows the documented behaviour of the function of the
Go standard library it is named after, on well-formed UTF-8 text. -/

/-- The predicate `unicode.IsSpace`: the ASCII white space, U+0085, U+00A0
and the runes of category Z. -/
def isSpace (c : Char) : Bool :=
  let n := c.toNat
  n == 0x09 || n == 0x0A || n == 0x0B || n == 0x0C || n == 0x0D || n == 0x20 ||
  n == 0x85 || n == 0xA0 || n == 0x1680 || (0x2000 ≤ n && n ≤ 0x200A) ||
  n == 0x2028 || n == 0x2029 || n == 0x202F || n == 0x205F || n == 0x3000

/-- The function `strings.TrimSpace`: the leading and the trailing white space
are removed. -/
def TrimSpace (s : List Char) : List Char :=
  ((s.dropWhile isSpace).reverse.dropWhile isSpace).reverse

/-- The rune map of `unicode.ToLower`, as far as `strings.Contains` with an
ASCII needle can observe it: `A`..`Z` go to `a`..`z`, U+0130 goes to `i` and
U+212A (the Kelvin sign) goes to `k`; every other rune outside ASCII is sent by
`unicode.ToLower` to a rune outside ASCII and is left in place here. -/
def toLowerRune (c : Char) : Char :=
  if 'A' ≤ c ∧ c ≤ 'Z' then Char.ofNat (c.toNat + 32)
  else if c.toNat = 0x130 then 'i'
  else if c.toNat = 0x212A then 'k'
  else c

/-- The function `strings.ToLower`: every rune is mapped on its own. -/
def ToLower (s : List Char) : List Char := s.map toLowerRune

/-- The function `strings.Contains`: whether `substr` occurs in `s`. -/
def Contains : List Char → List Char → Bool
  | [], substr => substr.isEmpty
  | c :: t, substr => substr.isPrefixOf (c :: t) || Contains t substr

/-- The function `strings.Split(s, "\n")`: the pieces between the line feeds;
the empty text has the single piece `""`. -/
def SplitLines : List Char → List (List Char)
  | [] => [[]]
  | c :: t =>
    if c = '\n' then [] :: SplitLines t
    else
      match SplitLines t with
      | [] => [[c]]
      | l :: ls => (c :: l) :: ls

/-- The loop of `strings.Fields`: `cur` holds, reversed, the runes of the field
being read. -/
def fieldsFrom : List Char → List Char → List (List Char)
  | [], cur => if cur.isEmpty then [] else [cur.reverse]
  | c :: t, cur =>
    if isSpace c then
      if cur.isEmpty then fieldsFrom t [] else cur.reverse :: fieldsFrom t []
    else fieldsFrom t (c :: cur)

/-- The function `strings.Fields`: the maximal runs of runes that are not white
space. -/
def Fields (s : List Char) : List (List Char) := fieldsFrom s []

/-- The function `strings.Trim(s, cutset)`: the leading and the trailing runes
that occur in `cutset` are removed. -/
def Trim (s cutset : List Char) : List Char :=
  ((s.dropWhile (fun c => cutset.contains c)).reverse.dropWhile
    (fun c => cutset.contains c)).reverse

/-! ## Values of type `float64` -/

/-- A value of the Go type `float64`: `finite neg m e` is the number
`(-1)^neg * m * 2^e` (both zeros are finite values), next to the infinities and
NaN. -/
inductive Float64 where
  | finite (neg : Bool) (mant : Nat) (exp : Int)
  | inf (neg : Bool)
  | nan
  deriving DecidableEq, Repr

/-- The Go comparison `val >= 0`; it holds of the negative zero and fails on
NaN. -/
def Float64.geZero : Float64 → Bool
  | .finite neg m _ => !neg || m == 0
  | .inf neg => !neg
  | .nan => false

/-- The Go comparison `val <= 1`; it fails on NaN. -/
def Float64.leOne : Float64 → Bool
  | .finite neg m e =>
    neg || m == 0 || (if 0 ≤ e then m * 2 ^ e.toNat ≤ 1 else m ≤ 2 ^ (-e).toNat)
  | .inf neg => neg
  | .nan => false

/-- The rational number a finite `float64` stands for (`0` for the others). -/
def Float64.toRat : Float64 → ℚ
  | .finite neg m e => (if neg then -1 else 1) * (m : ℚ) * (2 : ℚ) ^ e
  | _ => 0

/-- The quotient `q`, the remainder `r` and the divisor `d` of
`num / (den * 2^e)`, so that `num / den = (q + r / d) * 2^e`. -/
def scaledDiv (num den : Nat) (e : Int) : Nat × Nat × Nat :=
  if 0 ≤ e then
    let d := den * 2 ^ e.toNat
    (num / d, num % d, d)
  else
    let n := num * 2 ^ (-e).toNat
    (n / den, n % den, den)

/-- The number of halvings that bring `n` below `2`, at most `fuel` of
them, added to `acc`: with enough fuel the integer part of the binary
logarithm of `n`. -/
def log2Fuel : Nat → Nat → Nat → Nat
  | 0, _, acc => acc
  | fuel + 1, n, acc => if n < 2 then acc else log2Fuel fuel (n / 2) (acc + 1)

/-- The integer part of the binary logarithm of `n` (`0` for `n = 0`). -/
def log2 (n : Nat) : Nat := log2Fuel n n 0

/-- The `float64` nearest to `(-1)^neg * num / den`, ties going to the even
mantissa (IEEE 754 binary64: 53 bits of mantissa, least exponent `-1074`);
`none` when the result is out of range, where `strconv.ParseFloat` reports
`ErrRange`.  A result too small for a denormal is a zero and no error. -/
def roundFloat64 (neg : Bool) (num den : Nat) : Option Float64 :=
  if num = 0 then some (.finite neg 0 (-1074))
  else
    let l : Int := (log2 num : Int) - (log2 den : Int)
    let e1 : Int := max (l - 53) (-1074)
    let e : Int := if 2 ^ 53 ≤ (scaledDiv num den e1).1 then e1 + 1 else e1
    let (q, r, d) := scaledDiv num den e
    let q1 := if d < 2 * r ∨ (2 * r = d ∧ q % 2 = 1) then q + 1 else q
    let (m, e2) := if q1 = 2 ^ 53 then (2 ^ 52, e + 1) else (q1, e)
    if 971 < e2 then none else some (.finite neg m e2)

/-! ## `strconv.ParseFloat(s, 64)`

The scanner follows `readFloat`, `special` and `underscoreOK` of the package
`strconv`; a Go byte outside ASCII belongs to a rune outside ASCII and is, like
it, none of the bytes the scanner looks for.  The value is the exact number the
text denotes, rounded once by `roundFloat64`. -/

/-- An ASCII decimal digit. -/
def isDigit (c : Char) : Bool := decide ('0' ≤ c) && decide (c ≤ '9')

/-- The value of an ASCII decimal digit. -/
def digitVal (c : Char) : Nat := c.toNat - 48

/-- A letter that is a hexadecimal digit. -/
def isHexLetter (c : Char) : Bool :=
  (decide ('a' ≤ c) && decide (c ≤ 'f')) || (decide ('A' ≤ c) && decide (c ≤ 'F'))

/-- The value of a hexadecimal digit. -/
def hexVal (c : Char) : Nat :=
  if isDigit c then c.toNat - 48
  else if 'a' ≤ c ∧ c ≤ 'f' then c.toNat - 87
  else c.toNat - 55

/-- The function `commonPrefixLenIgnoreCase` of `strconv`: the length of the
common start of `s`, its letters `A`..`Z` lowered, and the lower-case `p`. -/
def commonPrefixLenIgnoreCase : List Char → List Char → Nat
  | c :: s, p :: ps =>
    let c1 := if 'A' ≤ c ∧ c ≤ 'Z' then Char.ofNat (c.toNat + 32) else c
    if c1 = p then commonPrefixLenIgnoreCase s ps + 1 else 0
  | _, _ => 0

/-- The `case 'i', 'I'` body of `special`: `s` starts with `inf` or with
`infinity`, whatever the case of the letters. -/
def specialInf (neg : Bool) (nsign : Nat) (s : List Char) : Option (Float64 × Nat) :=
  let n := commonPrefixLenIgnoreCase s "infinity".data
  let n := if 3 < n ∧ n < 8 then 3 else n
  if n = 3 ∨ n = 8 then some (.inf neg, nsign + n) else none

/-- The function `special` of `strconv`: an infinity or NaN at the start of
`s`, with the number of bytes it takes. -/
def special (s : List Char) : Option (Float64 × Nat) :=
  match s with
  | [] => none
  | c :: t =>
    if c = '+' ∨ c = '-' then specialInf (c == '-') 1 t
    else if c = 'i' ∨ c = 'I' then specialInf false 0 (c :: t)
    else if c = 'n' ∨ c = 'N' then
      if commonPrefixLenIgnoreCase (c :: t) "nan".data = 3 then some (.nan, 3) else none
    else none

/-- What `readFloat` has read: the sign, the base, the integer written by all
the digits of the mantissa, the number of them after the point, the signed
exponent, whether an underscore was met, and the text left over. -/
structure FloatScan where
  neg : Bool
  hex : Bool
  digits : Nat
  fracDigits : Nat
  sawdot : Bool
  sawdigits : Bool
  exp : Int
  underscores : Bool
  rest : List Char
  deriving DecidableEq, Repr

/-- The mantissa loop of `readFloat`. -/
def readMantissa : List Char → FloatScan → FloatScan
  | [], st => { st with rest := [] }
  | c :: t, st =>
    if c = '_' then readMantissa t { st with underscores := true }
    else if c = '.' then
      if st.sawdot then { st with rest := c :: t }
      else readMantissa t { st with sawdot := true }
    else if isDigit c then
      readMantissa t { st with
        sawdigits := true
        digits := st.digits * (if st.hex then 16 else 10) + digitVal c
        fracDigits := if st.sawdot then st.fracDigits + 1 else st.fracDigits }
    else if st.hex && isHexLetter c then
      readMantissa t { st with
        sawdigits := true
        digits := st.digits * 16 + hexVal c
        fracDigits := if st.sawdot then st.fracDigits + 1 else st.fracDigits }
    else { st with rest := c :: t }

/-- The exponent loop of `readFloat`: digits and underscores are consumed, and
the exponent stops growing once it has reached `10000`. -/
def readExpDigits : List Char → Nat → Bool → Nat × Bool × List Char
  | [], e, us => (e, us, [])
  | c :: t, e, us =>
    if isDigit c then readExpDigits t (if e < 10000 then e * 10 + digitVal c else e) us
    else if c = '_' then readExpDigits t e true
    else (e, us, c :: t)

/-- The exponent part of `readFloat`, entered after the exponent letter. -/
def readExponent (st : FloatScan) (t : List Char) : Option FloatScan :=
  match t with
  | [] => none
  | c :: t1 =>
    let esign : Int := if c = '-' then -1 else 1
    let t2 := if c = '+' ∨ c = '-' then t1 else c :: t1
    match t2 with
    | [] => none
    | d :: _ =>
      if !isDigit d then none
      else
        let (e, us, rest) := readExpDigits t2 0 st.underscores
        some { st with exp := (e : Int) * esign, underscores := us, rest := rest }

/-- The loop of `underscoreOK`; `saw` is the kind of the last byte seen. -/
def underscoreLoop (hex : Bool) : List Char → Char → Bool
  | [], saw => saw != '_'
  | c :: t, saw =>
    if isDigit c || (hex && isHexLetter c) then underscoreLoop hex t '0'
    else if c = '_' then
      if saw != '0' then false else underscoreLoop hex t '_'
    else if saw = '_' then false
    else underscoreLoop hex t '!'

/-- The function `underscoreOK` of `strconv`: underscores stand only between
digits, or between a base prefix and a digit. -/
def underscoreOK (s : List Char) : Bool :=
  let s1 := match s with
    | c :: t => if c = '-' ∨ c = '+' then t else s
    | [] => s
  match s1 with
  | c0 :: c1 :: t =>
    if c0 = '0' ∧ (c1 = 'b' ∨ c1 = 'B' ∨ c1 = 'o' ∨ c1 = 'O' ∨ c1 = 'x' ∨ c1 = 'X') then
      underscoreLoop (c1 = 'x' ∨ c1 = 'X') t '0'
    else underscoreLoop false s1 '^'
  | _ => underscoreLoop false s1 '^'

/-- The function `readFloat` of `strconv`, `none` where it reports `!ok`. -/
def readFloat (s : List Char) : Option FloatScan :=
  match s with
  | [] => none
  | c :: t =>
    let neg := c == '-'
    let s1 := if c = '+' ∨ c = '-' then t else s
    let hex := match s1 with
      | c0 :: c1 :: _ :: _ => c0 == '0' && (c1 == 'x' || c1 == 'X')
      | _ => false
    let s2 := if hex then s1.drop 2 else s1
    let st := readMantissa s2
      { neg := neg, hex := hex, digits := 0, fracDigits := 0, sawdot := false,
        sawdigits := false, exp := 0, underscores := false, rest := [] }
    if !st.sawdigits then none
    else
      let st1 : Option FloatScan :=
        match st.rest with
        | [] => if hex then none else some st
        | x :: r =>
          if (hex && (x == 'p' || x == 'P')) || (!hex && (x == 'e' || x == 'E')) then
            readExponent st r
          else if hex then none
          else some st
      match st1 with
      | none => none
      | some st2 =>
        if st2.underscores && !underscoreOK (s.take (s.length - st2.rest.length)) then none
        else some st2

/-- The function `strconv.ParseFloat(s, 64)`: `some v` when it returns `v` and
a nil error, `none` when it returns an error (bad syntax, trailing text, or a
value out of range). -/
def ParseFloat (s : List Char) : Option Float64 :=
  match special s with
  | some (v, n) => if n = s.length then some v else none
  | none =>
    match readFloat s with
    | none => none
    | some st =>
      if !st.rest.isEmpty then none
      else
        let b : Nat := if st.hex then 2 else 10
        let k : Int := st.exp - (if st.hex then 4 else 1) * (st.fracDigits : Int)
        if 0 ≤ k then roundFloat64 st.neg (st.digits * b ^ k.toNat) 1
        else roundFloat64 st.neg st.digits (b ^ (-k).toNat)

/-! ## JSON texts, as `encoding/json` reads them

The reader accepts what the scanner of `encoding/json` accepts: the grammar of
RFC 8259 with the white space ` `, `\t`, `\r`, `\n` and at most `10000` open
arrays and objects. -/

/-- A JSON value; a number keeps its text, a string is already unquoted. -/
inductive JValue where
  | null
  | bool (b : Bool)
  | number (lit : List Char)
  | string (s : List Char)
  | array (xs : List JValue)
  | object (kvs : List (List Char × JValue))
  deriving Repr

/-- The white space of the JSON scanner. -/
def isJsonSpace (c : Char) : Bool := c == ' ' || c == '\t' || c == '\r' || c == '\n'

/-- The text after its leading JSON white space. -/
def skipWS (s : List Char) : List Char := s.dropWhile isJsonSpace

/-- A hexadecimal digit of a `\u` escape. -/
def isHexDigit (c : Char) : Bool := isDigit c || isHexLetter c

/-- The number written by four hexadecimal digits. -/
def hex4 (a b c d : Char) : Nat :=
  ((hexVal a * 16 + hexVal b) * 16 + hexVal c) * 16 + hexVal d

/-- The loop of `unquote` on the body of a JSON string, after the opening
quote: the unquoted text and what follows the closing quote.  A `\u` escape of
a surrogate half that is not followed by the escape of its other half becomes
U+FFFD.  Every step consumes a character, so a fuel of the length of the text
plus one is never used up. -/
def stringBodyLoop : Nat → List Char → List Char → Option (List Char × List Char)
  | 0, _, _ => none
  | _ + 1, [], _ => none
  | fuel + 1, c :: t, acc =>
    if c = '"' then some (acc.reverse, t)
    else if c = '\\' then
      match t with
      | 'u' :: h1 :: h2 :: h3 :: h4 :: t2 =>
        if !(isHexDigit h1 && isHexDigit h2 && isHexDigit h3 && isHexDigit h4) then none
        else
          let rr := hex4 h1 h2 h3 h4
          if 0xD800 ≤ rr ∧ rr < 0xDC00 then
            match t2 with
            | '\\' :: 'u' :: g1 :: g2 :: g3 :: g4 :: t4 =>
              let rr1 := hex4 g1 g2 g3 g4
              if isHexDigit g1 && isHexDigit g2 && isHexDigit g3 && isHexDigit g4 &&
                  decide (0xDC00 ≤ rr1) && decide (rr1 < 0xE000) then
                stringBodyLoop fuel t4
                  (Char.ofNat ((rr - 0xD800) * 0x400 + (rr1 - 0xDC00) + 0x10000) :: acc)
              else stringBodyLoop fuel t2 (Char.ofNat 0xFFFD :: acc)
            | _ => stringBodyLoop fuel t2 (Char.ofNat 0xFFFD :: acc)
          else if 0xDC00 ≤ rr ∧ rr < 0xE000 then
            stringBodyLoop fuel t2 (Char.ofNat 0xFFFD :: acc)
          else stringBodyLoop fuel t2 (Char.ofNat rr :: acc)
      | e :: t1 =>
        if e = '"' ∨ e = '\\' ∨ e = '/' then stringBodyLoop fuel t1 (e :: acc)
        else if e = 'b' then stringBodyLoop fuel t1 (Char.ofNat 8 :: acc)
        else if e = 'f' then stringBodyLoop fuel t1 (Char.ofNat 12 :: acc)
        else if e = 'n' then stringBodyLoop fuel t1 ('\n' :: acc)
        else if e = 'r' then stringBodyLoop fuel t1 ('\r' :: acc)
        else if e = 't' then stringBodyLoop fuel t1 ('\t' :: acc)
        else none
      | [] => none
    else if c.toNat < 0x20 then none
    else stringBodyLoop fuel t (c :: acc)

/-- The body of a JSON string, after the opening quote. -/
def parseStringBody (s acc : List Char) : Option (List Char × List Char) :=
  stringBodyLoop (s.length + 1) s acc

/-- The longest run of decimal digits at the start of the text, and the rest. -/
def spanDigits : List Char → List Char × List Char
  | [] => ([], [])
  | c :: t =>
    if isDigit c then ((spanDigits t).1.cons c, (spanDigits t).2) else ([], c :: t)

/-- A JSON number at the start of the text: its characters and the rest. -/
def parseNumber (s : List Char) : Option (List Char × List Char) :=
  let (sign, s1) : List Char × List Char :=
    match s with
    | '-' :: t => (['-'], t)
    | _ => ([], s)
  let (int, s2) := spanDigits s1
  if int.isEmpty then none
  else if int.head? = some '0' ∧ int.length ≠ 1 then some (sign ++ ['0'], s1.drop 1)
  else
    let frac : Option (List Char × List Char) :=
      match s2 with
      | '.' :: t =>
        let (fr, s3) := spanDigits t
        if fr.isEmpty then none else some ('.' :: fr, s3)
      | _ => some ([], s2)
    match frac with
    | none => none
    | some (fr, s3) =>
      match s3 with
      | x :: t =>
        if x = 'e' ∨ x = 'E' then
          let (es, t1) : List Char × List Char :=
            match t with
            | '+' :: r => (['+'], r)
            | '-' :: r => (['-'], r)
            | _ => ([], t)
          let (ed, s4) := spanDigits t1
          if ed.isEmpty then none else some (sign ++ int ++ fr ++ [x] ++ es ++ ed, s4)
        else some (sign ++ int ++ fr, s3)
      | [] => some (sign ++ int ++ fr, s3)

/-- The bound `maxNestingDepth` of the scanner. -/
def maxNestingDepth : Nat := 10000

mutual
/-- A JSON value at the start of the text (after white space) and what
follows it; `depth` counts the arrays and objects that are open. -/
def parseValue : Nat → Nat → List Char → Option (JValue × List Char)
  | 0, _, _ => none
  | fuel + 1, depth, s =>
    match skipWS s with
    | [] => none
    | c :: t =>
      if c = '{' then
        if maxNestingDepth ≤ depth then none
        else
          match skipWS t with
          | '}' :: r => some (.object [], r)
          | t1 => parseMembers fuel (depth + 1) t1 []
      else if c = '[' then
        if maxNestingDepth ≤ depth then none
        else
          match skipWS t with
          | ']' :: r => some (.array [], r)
          | t1 => parseElements fuel (depth + 1) t1 []
      else if c = '"' then
        match parseStringBody t [] with
        | some (str, r) => some (.string str, r)
        | none => none
      else if c = '-' ∨ isDigit c then
        match parseNumber (c :: t) with
        | some (lit, r) => some (.number lit, r)
        | none => none
      else
        match c :: t with
        | 't' :: 'r' :: 'u' :: 'e' :: r => some (.bool true, r)
        | 'f' :: 'a' :: 'l' :: 's' :: 'e' :: r => some (.bool false, r)
        | 'n' :: 'u' :: 'l' :: 'l' :: r => some (.null, r)
        | _ => none
/-- The members of an object from the start of a key on, up to the closing
brace; `acc` holds, reversed, the members already read. -/
def parseMembers : Nat → Nat → List Char → List (List Char × JValue) →
    Option (JValue × List Char)
  | 0, _, _, _ => none
  | fuel + 1, depth, s, acc =>
    match s with
    | '"' :: t =>
      match parseStringBody t [] with
      | none => none
      | some (key, r) =>
        match skipWS r with
        | ':' :: r1 =>
          match parseValue fuel depth r1 with
          | none => none
          | some (v, r2) =>
            match skipWS r2 with
            | ',' :: r3 => parseMembers fuel depth (skipWS r3) ((key, v) :: acc)
            | '}' :: r3 => some (.object ((key, v) :: acc).reverse, r3)
            | _ => none
        | _ => none
    | _ => none
/-- The elements of an array from the start of an element on, up to the
closing bracket; `acc` holds, reversed, the elements already read. -/
def parseElements : Nat → Nat → List Char → List JValue → Option (JValue × List Char)
  | 0, _, _, _ => none
  | fuel + 1, depth, s, acc =>
    match parseValue fuel depth s with
    | none => none
    | some (v, r) =>
      match skipWS r with
      | ',' :: r1 => parseElements fuel depth r1 (v :: acc)
      | ']' :: r1 => some (.array (v :: acc).reverse, r1)
      | _ => none
end

/-- The whole text as one JSON value, as `json.Unmarshal` checks its input:
one value, white space around it and nothing else.  The fuel exceeds the number
of values, members and elements a text of that length can hold. -/
def parseJSON (s : List Char) : Option JValue :=
  match parseValue (2 * s.length + 2) 0 s with
  | some (v, r) => if (skipWS r).isEmpty then some v else none
  | none => none

/-! ## Decoding a JSON value into a Go struct

`json.Unmarshal` matches a member of an object with the field whose `json`
name equals the key once both are case-folded, ignores the members that match
no field, leaves a field alone on `null`, and reports an error when a member
has a value its field cannot hold. -/

/-- The rune map of `foldName`, as far as the ASCII field names used here can
observe it: `a`..`z` go to `A`..`Z`, U+017F goes to `S` and U+212A goes to `K`;
every other rune outside ASCII folds to a rune outside ASCII and is left in
place here. -/
def foldRune (c : Char) : Char :=
  if 'a' ≤ c ∧ c ≤ 'z' then Char.ofNat (c.toNat - 32)
  else if c.toNat = 0x17F then 'S'
  else if c.toNat = 0x212A then 'K'
  else c

/-- The function `foldName` of `encoding/json`. -/
def foldName (s : List Char) : List Char := s.map foldRune

/-- Whether the key of a member selects the field with the `json` name
`field`. -/
def keyMatches (field : String) (key : List Char) : Bool :=
  foldName key == foldName field.data

/-- The anonymous struct `jsonResp` of `parseEvaluationResult`. -/
structure JsonResp where
  Success : Bool
  Explanation : String
  Confidence : Option Float64
  deriving DecidableEq, Repr

/-- One member of an object stored into a `jsonResp`; `none` is an
`UnmarshalTypeError`. -/
def storeVerdictMember (r : JsonResp) (kv : List Char × JValue) : Option JsonResp :=
  if keyMatches "success" kv.1 then
    match kv.2 with
    | .bool b => some { r with Success := b }
    | .null => some r
    | _ => none
  else if keyMatches "explanation" kv.1 then
    match kv.2 with
    | .string str => some { r with Explanation := String.mk str }
    | .null => some r
    | _ => none
  else if keyMatches "confidence" kv.1 then
    match kv.2 with
    | .number lit =>
      match ParseFloat lit with
      | some f => some { r with Confidence := some f }
      | none => none
    | .null => some { r with Confidence := none }
    | _ => none
  else some r

/-- The members of an object stored one after the other; a member that cannot
be stored makes the whole call report an error. -/
def storeVerdictMembers : List (List Char × JValue) → JsonResp → Option JsonResp
  | [], r => some r
  | kv :: kvs, r =>
    match storeVerdictMember r kv with
    | some r1 => storeVerdictMembers kvs r1
    | none => none

/-- The call `json.Unmarshal([]byte(content), &jsonResp)` on a zero `jsonResp`:
`some r` when the error is nil. -/
def unmarshalJsonResp (content : List Char) : Option JsonResp :=
  match parseJSON content with
  | some (.object kvs) =>
    storeVerdictMembers kvs { Success := false, Explanation := "", Confidence := none }
  | some .null => some { Success := false, Explanation := "", Confidence := none }
  | _ => none

/-- One member of an object stored into a `types.EvaluateRequest`; `none` is an
`UnmarshalTypeError`. -/
def storeRequestMember (r : EvaluateRequest) (kv : List Char × JValue) :
    Option EvaluateRequest :=
  if keyMatches "input" kv.1 then
    match kv.2 with
    | .string str => some { r with Input := String.mk str }
    | .null => some r
    | _ => none
  else if keyMatches "output" kv.1 then
    match kv.2 with
    | .string str => some { r with Output := String.mk str }
    | .null => some r
    | _ => none
  else if keyMatches "criteria" kv.1 then
    match kv.2 with
    | .string str => some { r with Criteria := String.mk str }
    | .null => some r
    | _ => none
  else some r

/-- The members of an object stored one after the other into a request. -/
def storeRequestMembers : List (List Char × JValue) → EvaluateRequest → Option EvaluateRequest
  | [], r => some r
  | kv :: kvs, r =>
    match storeRequestMember r kv with
    | some r1 => storeRequestMembers kvs r1
    | none => none

/-- The call `json.Unmarshal(body, &req)` on a zero `types.EvaluateRequest`:
`some req` when the error is nil. -/
def unmarshalRequest (body : List Char) : Option EvaluateRequest :=
  match parseJSON body with
  | some (.object kvs) => storeRequestMembers kvs { Input := "", Output := "", Criteria := "" }
  | some .null => some { Input := "", Output := "", Criteria := "" }
  | _ => none

/-! ## The verdict parser -/

/-- The inner loop of `parseEvaluationResult` over the words of one line: the
first word that, its leading and trailing `.` and `,` cut off, parses as a
number between `0` and `1`. -/
def scanWords : List (List Char) → Option Float64
  | [] => none
  | word :: words =>
    match ParseFloat (Trim word ".,".data) with
    | some val => if val.geZero && val.leOne then some val else scanWords words
    | none => scanWords words

/-- The outer loop of `parseEvaluationResult` over the lines; `confidence` is
the variable of that name.  The `break` of the source leaves the loop over the
words only, so every line is visited. -/
def scanLines : List (List Char) → Option Float64 → Option Float64
  | [], confidence => confidence
  | line :: lines, confidence =>
    if Contains (ToLower line) "confidence".data then
      match scanWords (Fields line) with
      | some val => scanLines lines (some val)
      | none => scanLines lines confidence
    else scanLines lines confidence

/-- The method `parseEvaluationResult`. -/
def parseEvaluationResult (content : String) : Bool × String × Option Float64 :=
  let content := TrimSpace content.data
  match unmarshalJsonResp content with
  | some jsonResp => (jsonResp.Success, jsonResp.Explanation, jsonResp.Confidence)
  | none =>
    let contentLower := ToLower content
    let success :=
      Contains contentLower "pass".data || Contains contentLower "success".data ||
        Contains contentLower "true".data
    let confidence := scanLines (SplitLines content) none
    (success, String.mk content, confidence)

/-! ## The judge client (`internal/client/openrouter.go`) -/

/-- The record `types.Message`. -/
structure Message where
  Role : String
  Content : String
  deriving DecidableEq, Repr

/-- The record `types.Choice`. -/
structure Choice where
  Message : Message
  deriving DecidableEq, Repr

/-- The record `types.Usage`. -/
structure Usage where
  TotalTokens : Int
  deriving DecidableEq, Repr

/-- The record `types.OpenRouterResponse`. -/
structure OpenRouterResponse where
  Choices : List Choice
  Usage : Usage
  deriving DecidableEq, Repr

/-- The record `types.EvaluateResponse`; `Confidence` is a `*float64`. -/
structure EvaluateResponse where
  Success : Bool
  Explanation : String
  Confidence : Option Float64
  deriving DecidableEq, Repr

/-- What the network does with the request `CallLLM` sends.  Either
`c.client.Do` fails with an error, or it yields a response with a status code
and a body; `decode` is what `json.NewDecoder(resp.Body).Decode` makes of that
body, an error message or the decoded envelope (it is looked at for status
`200` only). -/
inductive Exchange where
  | doError (err : String)
  | response (StatusCode : Int) (body : String) (decode : Except String OpenRouterResponse)

/-- The method `CallLLM`, as a function of what the network answers to the
prompt.  Marshalling a record of strings and building a request for the
constant `OpenRouterURL` do not fail, so the first two error returns of the
source are never taken. -/
def CallLLM (net : String → Exchange) (prompt : String) : Except String OpenRouterResponse :=
  match net prompt with
  | .doError err => .error ("failed to make request: " ++ err)
  | .response statusCode body decode =>
    if statusCode ≠ 200 then
      .error ("OpenRouter API error (status " ++ toString statusCode ++ "): " ++ body)
    else
      match decode with
      | .error err => .error ("failed to decode response: " ++ err)
      | .ok openRouterResp => .ok openRouterResp

/-! ## The orchestrator (`EvaluateRequest`) -/

/-- The prompt `EvaluateRequest` renders with `fmt.Sprintf`. -/
def buildPrompt (req : EvaluateRequest) : String :=
  "You are an AI evaluation judge. Please evaluate whether the given output meets the specified criteria for the given input.\n\nInput: "
    ++ req.Input ++ "\n\nOutput: " ++ req.Output ++ "\n\nCriteria: " ++ req.Criteria
    ++ "\n\nPlease respond with a JSON object containing:\n- \"success\": boolean (true if criteria is met, false otherwise)\n- \"explanation\": string (detailed explanation of your decision, no more than 100 words)\n- \"confidence\": float between 0 and 1 (optional, your confidence in the decision)\n\nExample response:\n\x7b\n  \"success\": true,\n  \"explanation\": \"The output correctly addresses the input and meets all specified criteria because...\",\n  \"confidence\": 0.85\n\x7d"

/-- The method `EvaluateRequest`: the verdict, or the error it returns. -/
def EvaluationService.EvaluateRequest (net : String → Exchange) (req : EvaluateRequest) :
    Except String EvaluateResponse :=
  match CallLLM net (buildPrompt req) with
  | .error err => .error ("LLM service error: " ++ err)
  | .ok openRouterResp =>
    match openRouterResp.Choices with
    | [] => .error "no response from evaluation service"
    | choice :: _ =>
      let (success, explanation, confidence) := parseEvaluationResult choice.Message.Content
      .ok { Success := success, Explanation := explanation, Confidence := confidence }

/-! ## The handler (`internal/handler/evaluate.go`) -/

/-- The body the handler writes: a verdict or an error record. -/
inductive ResponseBody where
  | verdict (r : EvaluateResponse)
  | error (e : ErrorResponse)
  deriving DecidableEq, Repr

/-- What the handler writes to the `http.ResponseWriter`. -/
structure HttpResponse where
  StatusCode : Int
  Body : ResponseBody
  deriving DecidableEq, Repr

/-- The method `sendErrorResponse`: the status code is also the `code` of the
body. -/
def sendErrorResponse (statusCode : Int) (errorCode message : String) : HttpResponse :=
  { StatusCode := statusCode
    Body := .error { Error := errorCode, Code := statusCode, Message := message } }

/-- The part of an `http.Request` the handler reads: the declared length
(`-1` when unknown), the bytes the body delivers, and whether reading the body
fails before its end or the limit of the reader is reached. -/
structure HttpRequest where
  ContentLength : Int
  Body : List Char
  BodyError : Bool
  deriving DecidableEq, Repr

/-- The number of bytes of a text in UTF-8. -/
def utf8Len (s : List Char) : Nat := (s.map Char.utf8Size).sum

/-- The `len(body)` of the handler: `io.LimitReader` hands over at most
`MaxPayloadSize + 1` bytes of the body. -/
def readLen (r : HttpRequest) : Int := min (utf8Len r.Body : Int) (MaxPayloadSize + 1)

/-- The step `if err := h.evaluationService.ValidatePayloadSize(len(body))` of
`Handle`: the response written when the size `n` of the body is refused. -/
def sizeCheck (s : EvaluationService) (n : Int) : Option HttpResponse :=
  match ValidatePayloadSize s n with
  | some err =>
    if n > MaxPayloadSize then some (sendErrorResponse 413 "PAYLOAD_TOO_LARGE" err)
    else some (sendErrorResponse 400 "PAYLOAD_TOO_SMALL" err)
  | none => none

/-- The method `Handle`, given the answer `allow` of the rate limiter and the
network of the judge client.  The result is the response written and the list
of the prompts sent to the judge model (`EvaluateRequest` calls `CallLLM`
once, with the prompt of the request).  The body is decoded only when
`len(body)` does not exceed `MaxPayloadSize`, where the limited reader has
handed over all of it. -/
def Handle (s : EvaluationService) (allow : Bool) (net : String → Exchange)
    (r : HttpRequest) : HttpResponse × List String :=
  if !allow then
    (sendErrorResponse 429 "RATE_LIMIT_EXCEEDED" "Too many requests, please try again later", [])
  else if r.ContentLength > MaxPayloadSize then
    (sendErrorResponse 413 "PAYLOAD_TOO_LARGE"
      ("Payload size exceeds maximum of " ++ toString MaxPayloadSize ++ " bytes"), [])
  else if r.BodyError then
    (sendErrorResponse 400 "INVALID_REQUEST" "Failed to read request body", [])
  else
    match sizeCheck s (readLen r) with
    | some resp => (resp, [])
    | none =>
      match unmarshalRequest r.Body with
      | none => (sendErrorResponse 400 "INVALID_JSON" "Invalid JSON format", [])
      | some req =>
        match ValidateRequest req with
        | some err => (sendErrorResponse 400 "VALIDATION_ERROR" err, [])
        | none =>
          match EvaluationService.EvaluateRequest net req with
          | .error _ =>
            (sendErrorResponse 503 "LLM_SERVICE_ERROR"
              "Evaluation service temporarily unavailable", [buildPrompt req])
          | .ok response => ({ StatusCode := 200, Body := .verdict response }, [buildPrompt req])

/-! ## Construction of the service -/

/-- The function `strconv.Atoi`: an optional sign and decimal digits, the value
within the 64-bit range of `int`; `none` when it returns an error. -/
def Atoi (s : List Char) : Option Int :=
  let (neg, ds) : Bool × List Char :=
    match s with
    | '-' :: t => (true, t)
    | '+' :: t => (false, t)
    | _ => (false, s)
  if ds.isEmpty || !ds.all isDigit then none
  else
    let n : Nat := ds.foldl (fun a c => a * 10 + digitVal c) 0
    let v : Int := if neg then -(n : Int) else (n : Int)
    if -(2 ^ 63) ≤ v ∧ v < 2 ^ 63 then some v else none

/-- The constructor `NewEvaluationService`, as a function of the value of the
environment variable `MIN_PAYLOAD_SIZE` (`""` when it is not set): a value
that parses as a non-negative integer replaces the default floor. -/
def NewEvaluationService (envMinSize : String) : EvaluationService :=
  if envMinSize ≠ "" then
    match Atoi envMinSize.data with
    | some parsedSize =>
      if parsedSize ≥ 0 then { minPayloadSize := parsedSize }
      else { minPayloadSize := DefaultMinPayloadSize }
    | none => { minPayloadSize := DefaultMinPayloadSize }
  else { minPayloadSize := DefaultMinPayloadSize }

/-! ## Notions used to state the properties -/

/-- A key that names none of the three fields of the verdict, whatever the
case of its letters. -/
def otherKey (key : List Char) : Bool :=
  !(keyMatches "success" key || keyMatches "explanation" key || keyMatches "confidence" key)

/-- Whether an object has a member with the key `k`. -/
def hasKey (k : String) (kvs : List (List Char × JValue)) : Bool :=
  kvs.any (fun kv => kv.1 == k.data)

/-- A token as the confidence scan reads it, in the words of the
specification: its leading and trailing `.` and `,` cut off, it parses as a
number between `0` and `1`. -/
def validToken (word : List Char) : Option Float64 :=
  match ParseFloat (Trim word ".,".data) with
  | some val => if val.geZero && val.leOne then some val else none
  | none => none

/-- The confidence a single line offers, in the words of the specification:
the first valid token of a line that contains `confidence` in any case. -/
def lineConfidence (line : List Char) : Option Float64 :=
  if Contains (ToLower line) "confidence".data then (Fields line).findSome? validToken
  else none

/-- A failure of the judge call, in the words of the specification: a
transport error, a status other than `200` with any body, an envelope that
cannot be decoded, or an envelope without choices. -/
def JudgeFailure : Exchange → Prop
  | .doError _ => True
  | .response statusCode _ decode =>
    statusCode ≠ 200 ∨
      (match decode with
        | .error _ => True
        | .ok openRouterResp => openRouterResp.Choices = [])

/-- A request that the rate limiter admits reaches the judge call with the
decoded request `req`: its declared length is within the ceiling, its body is
read, has an accepted size and decodes to `req`, and `req` is valid. -/
def ReachesJudge (s : EvaluationService) (r : HttpRequest) (req : EvaluateRequest) : Prop :=
  ¬ r.ContentLength > MaxPayloadSize ∧ r.BodyError = false ∧
    sizeCheck s (readLen r) = none ∧ unmarshalRequest r.Body = some req ∧
    ValidateRequest req = none

/-- The body of the end-to-end example of the specification. -/
def exampleBody : String :=
  "\x7b\"input\":\"2+2?\",\"output\":\"4\",\"criteria\":\"arithmetically correct\"\x7d"

/-- The request of the end-to-end example: the body with its length declared. -/
def exampleRequest : HttpRequest :=
  { ContentLength := 65, Body := exampleBody.data, BodyError := false }

/-- The decoded request of the end-to-end example. -/
def exampleDecoded : EvaluateRequest :=
  { Input := "2+2?", Output := "4", Criteria := "arithmetically correct" }

/-- The content the judge model returns in the end-to-end example. -/
def exampleContent : String :=
  "\x7b\"success\":true,\"explanation\":\"4 is correct\",\"confidence\":0.95\x7d"

/-- A judge that answers every prompt with the content of the end-to-end
example. -/
def exampleJudge : String → Exchange := fun _ =>
  .response 200 ""
    (.ok { Choices := [{ Message := { Role := "assistant", Content := exampleContent } }]
           Usage := { TotalTokens := 0 } })

/-! ## Properties of the validation -/

/-- The two messages of `ValidatePayloadSize` differ, whatever the floor. -/
theorem tooSmallMessage_ne_tooLargeMessage (n m : Int) :
    tooSmallMessage n ≠ tooLargeMessage m := by
  intro h
  have h1 := congrArg (fun t : String => t.data.take 14) h
  simp only [tooSmallMessage, tooLargeMessage, String.data_append] at h1
  revert h1
  simp [List.take]

/-- C1 (as stated, refuted): with the floor `2000000`, which
`MIN_PAYLOAD_SIZE=2000000` configures, the size `1048577` exceeds the ceiling
`1048576`, yet `ValidatePayloadSize` refuses it with the "too small" error, not
the "too large" one; and it is below the floor, yet the handler answers
`413 PAYLOAD_TOO_LARGE`, not `400 PAYLOAD_TOO_SMALL`. -/
theorem C1_counterexample :
    (NewEvaluationService "2000000").minPayloadSize = 2000000 ∧
    (1048577 : Int) > MaxPayloadSize ∧
    ValidatePayloadSize (NewEvaluationService "2000000") 1048577
      = some (tooSmallMessage 2000000) ∧
    ValidatePayloadSize (NewEvaluationService "2000000") 1048577
      ≠ some (tooLargeMessage MaxPayloadSize) ∧
    (1048577 : Int) < (NewEvaluationService "2000000").minPayloadSize ∧
    sizeCheck (NewEvaluationService "2000000") 1048577
      = some (sendErrorResponse 413 "PAYLOAD_TOO_LARGE" (tooSmallMessage 2000000)) := by
  have hs : NewEvaluationService "2000000" = { minPayloadSize := 2000000 } := by decide
  rw [hs]
  refine ⟨rfl, by decide, ?_, ?_, by decide, ?_⟩
  · simp [ValidatePayloadSize]
  · simp [ValidatePayloadSize, tooSmallMessage_ne_tooLargeMessage]
  · simp [sizeCheck, ValidatePayloadSize, MaxPayloadSize]

/-- C1 (amended): for every floor and every size `s`, `ValidatePayloadSize`
accepts `s` exactly when `minBytes ≤ s ≤ 1048576`, refuses it with the "too
small" error when `s < minBytes`, and with the "too large" error when
`s > 1048576` and `s` is not below the floor; the handler answers
`413 PAYLOAD_TOO_LARGE` whenever `s > 1048576`, `400 PAYLOAD_TOO_SMALL` when
`s < minBytes` and `s ≤ 1048576`, and lets `s` pass exactly when
`ValidatePayloadSize` accepts it; the two errors are distinct. -/
theorem C1_payload_size_classification (minBytes s : Int) :
    (ValidatePayloadSize { minPayloadSize := minBytes } s = none ↔
      minBytes ≤ s ∧ s ≤ 1048576) ∧
    (s < minBytes →
      ValidatePayloadSize { minPayloadSize := minBytes } s = some (tooSmallMessage minBytes)) ∧
    (minBytes ≤ s → s > 1048576 →
      ValidatePayloadSize { minPayloadSize := minBytes } s = some (tooLargeMessage 1048576)) ∧
    (s > 1048576 → ∃ msg, sizeCheck { minPayloadSize := minBytes } s
      = some (sendErrorResponse 413 "PAYLOAD_TOO_LARGE" msg)) ∧
    (s < minBytes → s ≤ 1048576 → sizeCheck { minPayloadSize := minBytes } s
      = some (sendErrorResponse 400 "PAYLOAD_TOO_SMALL" (tooSmallMessage minBytes))) ∧
    (sizeCheck { minPayloadSize := minBytes } s = none ↔ minBytes ≤ s ∧ s ≤ 1048576) ∧
    tooSmallMessage minBytes ≠ tooLargeMessage 1048576 := by
  have hmax : MaxPayloadSize = 1048576 := by decide
  refine ⟨?_, ?_, ?_, ?_, ?_, ?_, tooSmallMessage_ne_tooLargeMessage _ _⟩
  · simp only [ValidatePayloadSize, hmax]
    split_ifs <;> simp <;> omega
  · intro h
    simp [ValidatePayloadSize, h]
  · intro h1 h2
    simp [ValidatePayloadSize, hmax, not_lt.mpr h1, h2]
  · intro h
    simp only [sizeCheck, ValidatePayloadSize, hmax]
    split_ifs <;> simp_all
  · intro h1 h2
    simp [sizeCheck, ValidatePayloadSize, hmax, h1, not_lt.mpr h2]
  · simp only [sizeCheck, ValidatePayloadSize, hmax]
    split_ifs <;> simp <;> omega

/-- C9: `ValidateRequest` returns no error exactly when input, output and
criteria are all non-empty (nothing is trimmed: a field of white space
passes); otherwise the error names the first empty field in the order input,
output, criteria; the three messages are pairwise distinct. -/
theorem C9_validate_request (req : EvaluateRequest) :
    (ValidateRequest req = none ↔ req.Input ≠ "" ∧ req.Output ≠ "" ∧ req.Criteria ≠ "") ∧
    (req.Input = "" → ValidateRequest req = some "input field is required") ∧
    (req.Input ≠ "" → req.Output = "" →
      ValidateRequest req = some "output field is required") ∧
    (req.Input ≠ "" → req.Output ≠ "" → req.Criteria = "" →
      ValidateRequest req = some "criteria field is required") ∧
    ValidateRequest { Input := " ", Output := "\t", Criteria := "\n" } = none ∧
    ("input field is required" ≠ "output field is required" ∧
      "input field is required" ≠ "criteria field is required" ∧
      "output field is required" ≠ "criteria field is required") := by
  refine ⟨?_, ?_, ?_, ?_, by decide, by decide⟩
  · simp only [ValidateRequest]
    split_ifs <;> simp_all
  · intro h
    simp [ValidateRequest, h]
  · intro h1 h2
    simp [ValidateRequest, h1, h2]
  · intro h1 h2 h3
    simp [ValidateRequest, h1, h2, h3]

/-! ## Properties of the verdict parser -/

/-- When the structured decoding succeeds, `parseEvaluationResult` returns the
decoded fields as they are. -/
theorem parse_of_decoded (raw : String) (r : JsonResp)
    (h : unmarshalJsonResp (TrimSpace raw.data) = some r) :
    parseEvaluationResult raw = (r.Success, r.Explanation, r.Confidence) := by
  simp [parseEvaluationResult, h]

/-- When the structured decoding fails, `parseEvaluationResult` returns the
result of the heuristics on the trimmed text. -/
theorem parse_of_undecoded (raw : String)
    (h : unmarshalJsonResp (TrimSpace raw.data) = none) :
    parseEvaluationResult raw =
      (Contains (ToLower (TrimSpace raw.data)) "pass".data ||
          Contains (ToLower (TrimSpace raw.data)) "success".data ||
          Contains (ToLower (TrimSpace raw.data)) "true".data,
        String.mk (TrimSpace raw.data),
        scanLines (SplitLines (TrimSpace raw.data)) none) := by
  simp [parseEvaluationResult, h]

/-- A boolean member `success` sets the field `Success`. -/
theorem storeVerdictMember_success (r : JsonResp) (b : Bool) :
    storeVerdictMember r ("success".data, JValue.bool b) = some { r with Success := b } := by
  unfold storeVerdictMember
  rw [if_pos (show keyMatches "success" "success".data = true by decide)]

/-- A string member `explanation` sets the field `Explanation`. -/
theorem storeVerdictMember_explanation (r : JsonResp) (e : List Char) :
    storeVerdictMember r ("explanation".data, JValue.string e)
      = some { r with Explanation := String.mk e } := by
  unfold storeVerdictMember
  rw [if_neg (show ¬ keyMatches "success" "explanation".data = true by decide),
    if_pos (show keyMatches "explanation" "explanation".data = true by decide)]

/-- A number member `confidence` that `ParseFloat` accepts sets the field
`Confidence`. -/
theorem storeVerdictMember_confidence (r : JsonResp) (lit : List Char) (v : Float64)
    (hv : ParseFloat lit = some v) :
    storeVerdictMember r ("confidence".data, JValue.number lit)
      = some { r with Confidence := some v } := by
  unfold storeVerdictMember
  rw [if_neg (show ¬ keyMatches "success" "confidence".data = true by decide),
    if_neg (show ¬ keyMatches "explanation" "confidence".data = true by decide),
    if_pos (show keyMatches "confidence" "confidence".data = true by decide)]
  simp only [hv]

/-- A member whose key names none of the three fields is skipped, whatever
its value. -/
theorem storeVerdictMember_other (r : JsonResp) (kv : List Char × JValue)
    (h : otherKey kv.1 = true) : storeVerdictMember r kv = some r := by
  unfold otherKey at h
  simp only [Bool.not_eq_true', Bool.or_eq_false_iff] at h
  obtain ⟨⟨h1, h2⟩, h3⟩ := h
  unfold storeVerdictMember
  rw [if_neg (by rw [h1]; exact Bool.false_ne_true), if_neg (by rw [h2]; exact Bool.false_ne_true),
    if_neg (by rw [h3]; exact Bool.false_ne_true)]

/-- A key that names none of the three fields is none of their names. -/
theorem ne_of_otherKey (key : List Char) (h : otherKey key = true) :
    (key == "success".data) = false ∧ (key == "explanation".data) = false ∧
      (key == "confidence".data) = false := by
  refine ⟨?_, ?_, ?_⟩
  all_goals
    rw [beq_eq_false_iff_ne]
    intro hk
    rw [hk] at h
    revert h
    decide

/-- Storing members that are each the boolean `success`, the string
`explanation`, the number `confidence` or a member with another key yields the
fields the first three name. -/
theorem storeVerdictMembers_exact (b : Bool) (e lit : List Char) (v : Float64)
    (hv : ParseFloat lit = some v) (kvs : List (List Char × JValue)) :
    ∀ r : JsonResp,
      (∀ kv ∈ kvs, kv = ("success".data, JValue.bool b) ∨
        kv = ("explanation".data, JValue.string e) ∨
        kv = ("confidence".data, JValue.number lit) ∨ otherKey kv.1 = true) →
      storeVerdictMembers kvs r = some
        { Success := if hasKey "success" kvs then b else r.Success
          Explanation := if hasKey "explanation" kvs then String.mk e else r.Explanation
          Confidence := if hasKey "confidence" kvs then some v else r.Confidence } := by
  have d1 : ("success".data == "explanation".data) = false := by decide
  have d2 : ("success".data == "confidence".data) = false := by decide
  have d3 : ("explanation".data == "success".data) = false := by decide
  have d4 : ("explanation".data == "confidence".data) = false := by decide
  have d5 : ("confidence".data == "success".data) = false := by decide
  have d6 : ("confidence".data == "explanation".data) = false := by decide
  have c1 : ("success".data == "success".data) = true := by decide
  have c2 : ("explanation".data == "explanation".data) = true := by decide
  have c3 : ("confidence".data == "confidence".data) = true := by decide
  induction kvs with
  | nil => intro r _; rfl
  | cons kv kvs ih =>
    intro r h
    have hkv := h kv (List.mem_cons_self _ _)
    have htl : ∀ x ∈ kvs, x = ("success".data, JValue.bool b) ∨
        x = ("explanation".data, JValue.string e) ∨
        x = ("confidence".data, JValue.number lit) ∨ otherKey x.1 = true :=
      fun x hx => h x (List.mem_cons_of_mem _ hx)
    rcases hkv with rfl | rfl | rfl | ho
    · rw [storeVerdictMembers, storeVerdictMember_success]
      show storeVerdictMembers kvs _ = _
      rw [ih _ htl]
      unfold hasKey
      rw [List.any_cons, List.any_cons, List.any_cons, c1, d1, d2]
      cases List.any kvs (fun kv => kv.1 == "success".data) <;> rfl
    · rw [storeVerdictMembers, storeVerdictMember_explanation]
      show storeVerdictMembers kvs _ = _
      rw [ih _ htl]
      unfold hasKey
      rw [List.any_cons, List.any_cons, List.any_cons, c2, d3, d4]
      cases List.any kvs (fun kv => kv.1 == "explanation".data) <;> rfl
    · rw [storeVerdictMembers, storeVerdictMember_confidence _ _ _ hv]
      show storeVerdictMembers kvs _ = _
      rw [ih _ htl]
      unfold hasKey
      rw [List.any_cons, List.any_cons, List.any_cons, c3, d5, d6]
      cases List.any kvs (fun kv => kv.1 == "confidence".data) <;> rfl
    · obtain ⟨o1, o2, o3⟩ := ne_of_otherKey kv.1 ho
      rw [storeVerdictMembers, storeVerdictMember_other r kv ho]
      show storeVerdictMembers kvs _ = _
      rw [ih _ htl]
      unfold hasKey
      rw [List.any_cons, List.any_cons, List.any_cons, o1, o2, o3]
      rfl

set_option exponentiation.threshold 2000 in
set_option maxRecDepth 100000 in
/-- C2 (as stated, refuted): the text `{"success": false, "explanation":
"bad", "confidence": 1e309}` is a JSON object with a boolean `success`, a
string `explanation` and a numeric `confidence`, yet the parser does not
return these values: `1e309` is out of the range of `float64`, the decoding
reports an error, and the heuristics return success `true`, the whole text as
explanation and no confidence. -/
theorem C2_counterexample :
    parseJSON (TrimSpace
        "\x7b\"success\": false, \"explanation\": \"bad\", \"confidence\": 1e309\x7d".data)
      = some (JValue.object [("success".data, JValue.bool false),
          ("explanation".data, JValue.string "bad".data),
          ("confidence".data, JValue.number "1e309".data)]) ∧
    ParseFloat "1e309".data = none ∧
    unmarshalJsonResp (TrimSpace
        "\x7b\"success\": false, \"explanation\": \"bad\", \"confidence\": 1e309\x7d".data)
      = none ∧
    parseEvaluationResult
        "\x7b\"success\": false, \"explanation\": \"bad\", \"confidence\": 1e309\x7d"
      = (true, "\x7b\"success\": false, \"explanation\": \"bad\", \"confidence\": 1e309\x7d",
          none) ∧
    (parseEvaluationResult
        "\x7b\"success\": false, \"explanation\": \"bad\", \"confidence\": 1e309\x7d").1
      ≠ false := by
  refine ⟨rfl, ?_, ?_, ?_, ?_⟩ <;> decide

set_option maxRecDepth 100000 in
/-- C2 (amended): when the trimmed text is a JSON object whose members are a
boolean `success`, a string `explanation`, possibly a number `confidence` that
`float64` can hold, and any members with other keys, `parseEvaluationResult`
returns exactly the values of the first three, the confidence unset when the
member is absent and never checked against `[0,1]`; more generally it returns
whatever the structured decoding yields.  The text `{"success": true,
"explanation": "ok", "confidence": 0.9}` gives `true`, `"ok"` and the `float64`
nearest to `0.9`; a confidence of `7.5` comes back unchanged. -/
theorem C2_structured_path (raw : String) (kvs : List (List Char × JValue)) (b : Bool)
    (e lit : List Char) (v : Float64)
    (hobj : parseJSON (TrimSpace raw.data) = some (JValue.object kvs))
    (hmem : ∀ kv ∈ kvs, kv = ("success".data, JValue.bool b) ∨
      kv = ("explanation".data, JValue.string e) ∨
      kv = ("confidence".data, JValue.number lit) ∨ otherKey kv.1 = true)
    (hs : hasKey "success" kvs = true) (he : hasKey "explanation" kvs = true)
    (hv : ParseFloat lit = some v) :
    parseEvaluationResult raw
        = (b, String.mk e, if hasKey "confidence" kvs then some v else none) ∧
    (∀ r, unmarshalJsonResp (TrimSpace raw.data) = some r →
      parseEvaluationResult raw = (r.Success, r.Explanation, r.Confidence)) ∧
    parseEvaluationResult "\x7b\"success\": true, \"explanation\": \"ok\", \"confidence\": 0.9\x7d"
        = (true, "ok", some (Float64.finite false 8106479329266893 (-53))) ∧
    |(Float64.finite false 8106479329266893 (-53)).toRat - 9 / 10| ≤ 1 / 2 ^ 54 ∧
    parseEvaluationResult "\x7b\"success\": true, \"explanation\": \"ok\", \"confidence\": 7.5\x7d"
        = (true, "ok", some (Float64.finite false 8444249301319680 (-50))) ∧
    (Float64.finite false 8444249301319680 (-50)).toRat = 15 / 2 ∧
    (Float64.finite false 8444249301319680 (-50)).leOne = false ∧
    parseEvaluationResult "\x7b\"success\": false, \"explanation\": \"no\"\x7d"
        = (false, "no", none) := by
  refine ⟨?_, fun r hr => parse_of_decoded raw r hr, by decide, ?_, by decide, ?_, by decide,
    by decide⟩
  · have hdec : unmarshalJsonResp (TrimSpace raw.data)
        = storeVerdictMembers kvs { Success := false, Explanation := "", Confidence := none } := by
      simp only [unmarshalJsonResp, hobj]
    rw [storeVerdictMembers_exact b e lit v hv kvs _ hmem] at hdec
    rw [parse_of_decoded raw _ hdec]
    simp [hs, he]
  · rw [abs_le]
    norm_num [Float64.toRat]
  · norm_num [Float64.toRat]

set_option maxRecDepth 100000 in
/-- C2 (amended) at the text `{"id": [7], "success": true, "explanation":
"ok", "confidence": 0.9}`, which has a member the verdict does not know. -/
theorem C2_structured_path_witness :
    parseEvaluationResult
        "\x7b\"id\": [7], \"success\": true, \"explanation\": \"ok\", \"confidence\": 0.9\x7d"
      = (true, "ok", some (Float64.finite false 8106479329266893 (-53))) :=
  (C2_structured_path
    "\x7b\"id\": [7], \"success\": true, \"explanation\": \"ok\", \"confidence\": 0.9\x7d"
    [("id".data, JValue.array [JValue.number "7".data]),
      ("success".data, JValue.bool true), ("explanation".data, JValue.string "ok".data),
      ("confidence".data, JValue.number "0.9".data)]
    true "ok".data "0.9".data (Float64.finite false 8106479329266893 (-53))
    rfl
    (by
      intro kv hkv
      simp only [List.mem_cons, List.mem_singleton, List.not_mem_nil, or_false] at hkv
      rcases hkv with rfl | rfl | rfl | rfl
      · exact Or.inr (Or.inr (Or.inr (by decide)))
      · exact Or.inl rfl
      · exact Or.inr (Or.inl rfl)
      · exact Or.inr (Or.inr (Or.inl rfl)))
    (by decide) (by decide) (by decide)).1

set_option maxRecDepth 100000 in
/-- C5 (as stated, refuted): on the raw text `"  hello \n"` the structured
decoding fails and the explanation returned is `"hello"`, not the raw text. -/
theorem C5_counterexample :
    unmarshalJsonResp (TrimSpace "  hello \n".data) = none ∧
    (parseEvaluationResult "  hello \n").2.1 = "hello" ∧
    (parseEvaluationResult "  hello \n").2.1 ≠ "  hello \n" := by
  decide

/-- C5 (amended): when the structured decoding fails, the explanation
returned is the raw text without its leading and trailing white space; it is
the raw text itself when that has no white space at either end. -/
theorem C5_heuristic_explanation (raw : String)
    (h : unmarshalJsonResp (TrimSpace raw.data) = none) :
    (parseEvaluationResult raw).2.1 = String.mk (TrimSpace raw.data) ∧
    (TrimSpace raw.data = raw.data → (parseEvaluationResult raw).2.1 = raw) := by
  rw [parse_of_undecoded raw h]
  refine ⟨rfl, fun ht => ?_⟩
  simp only [ht]

set_option maxRecDepth 100000 in
/-- C5 (amended) at the raw text `"  hello \n"`. -/
theorem C5_heuristic_explanation_witness :
    unmarshalJsonResp (TrimSpace "  hello \n".data) = none ∧
    (parseEvaluationResult "  hello \n").2.1 = String.mk (TrimSpace "  hello \n".data) :=
  ⟨by decide, (C5_heuristic_explanation "  hello \n" (by decide)).1⟩

set_option maxRecDepth 100000 in
/-- C6 (as stated, refuted): on the text `The output does not pass.
Confidence: 0.3 out of 1.` the structured decoding fails and the success flag
returned is `true`, not `false`, because the text contains `pass`. -/
theorem C6_counterexample :
    unmarshalJsonResp
      (TrimSpace "The output does not pass. Confidence: 0.3 out of 1.".data) = none ∧
    (parseEvaluationResult "The output does not pass. Confidence: 0.3 out of 1.").1 = true ∧
    (parseEvaluationResult "The output does not pass. Confidence: 0.3 out of 1.").1 ≠ false := by
  decide

set_option maxRecDepth 100000 in
/-- C6 (amended): on the text `The output does not pass. Confidence: 0.3 out
of 1.` the parser returns success `true`, the full text as explanation and
the `float64` nearest to `0.3` as confidence. -/
theorem C6_fallback_example :
    parseEvaluationResult "The output does not pass. Confidence: 0.3 out of 1."
      = (true, "The output does not pass. Confidence: 0.3 out of 1.",
          some (Float64.finite false 5404319552844595 (-54))) ∧
    |(Float64.finite false 5404319552844595 (-54)).toRat - 3 / 10| ≤ 1 / 2 ^ 55 := by
  refine ⟨by decide, ?_⟩
  rw [abs_le]
  norm_num [Float64.toRat]

/-! ## The success heuristic and the trimming -/

/-- The function `Contains` decides whether `sub` is a contiguous part of
`s`. -/
theorem Contains_iff_infix (s sub : List Char) : Contains s sub = true ↔ sub <:+: s := by
  induction s with
  | nil => simp [Contains, List.isEmpty_iff]
  | cons c t ih =>
    rw [Contains, Bool.or_eq_true, ih, List.infix_cons_iff, List.isPrefixOf_iff_prefix]

/-- White space is its own lower case. -/
theorem toLowerRune_of_isSpace (c : Char) (h : isSpace c = true) : toLowerRune c = c := by
  have hA : ¬ ('A' ≤ c ∧ c ≤ 'Z') := by
    rintro ⟨h1, h2⟩
    have h1' : 65 ≤ c.toNat := h1
    have h2' : c.toNat ≤ 90 := h2
    simp [isSpace] at h
    omega
  have hB : ¬ c.toNat = 0x130 := by
    intro h1
    simp [isSpace, h1] at h
  have hC : ¬ c.toNat = 0x212A := by
    intro h1
    simp [isSpace, h1] at h
  simp [toLowerRune, hA, hB, hC]

/-- A text found in `A ++ T` that shares no character with `A` is found in
`T`. -/
theorem infix_of_infix_append_left (n A T : List Char) (hn : n ≠ [])
    (hA : ∀ x ∈ A, x ∉ n) (h : n <:+: A ++ T) : n <:+: T := by
  induction A with
  | nil => simpa using h
  | cons x A ih =>
    have hA1 : ∀ y ∈ A, y ∉ n := fun y hy => hA y (List.mem_cons_of_mem _ hy)
    rw [List.cons_append, List.infix_cons_iff] at h
    rcases h with h | h
    · exfalso
      cases n with
      | nil => exact hn rfl
      | cons y n1 =>
        have hxy : y = x := by
          obtain ⟨t, ht⟩ := h
          simp only [List.cons_append, List.cons.injEq] at ht
          exact ht.1
        exact hA x (List.mem_cons_self _ _) (by rw [hxy]; exact List.mem_cons_self _ _)
    · exact ih hA1 h

/-- A text found in `A ++ T ++ B` that shares no character with `A` and `B`
is found in `T`, and conversely. -/
theorem infix_append_iff_of_disjoint (n A T B : List Char) (hn : n ≠ [])
    (hA : ∀ x ∈ A, x ∉ n) (hB : ∀ x ∈ B, x ∉ n) : n <:+: A ++ T ++ B ↔ n <:+: T := by
  constructor
  · intro h
    rw [List.append_assoc] at h
    have h1 : n <:+: T ++ B := infix_of_infix_append_left n A (T ++ B) hn hA h
    have h2 : n.reverse <:+: B.reverse ++ T.reverse := by
      rw [← List.reverse_append, List.reverse_infix]
      exact h1
    have h3 : n.reverse <:+: T.reverse :=
      infix_of_infix_append_left n.reverse B.reverse T.reverse
        (by simpa using hn) (fun x hx hx1 => hB x (List.mem_reverse.mp hx) (List.mem_reverse.mp hx1)) h2
    exact List.reverse_infix.mp h3
  · intro h
    exact h.trans (List.infix_append A T B)

/-- A text is its trimmed form between two runs of white space. -/
theorem TrimSpace_decomposition (s : List Char) :
    ∃ A B : List Char, s = A ++ TrimSpace s ++ B ∧
      (∀ x ∈ A, isSpace x = true) ∧ (∀ x ∈ B, isSpace x = true) := by
  refine ⟨s.takeWhile isSpace, ((s.dropWhile isSpace).reverse.takeWhile isSpace).reverse,
    ?_, fun x hx => List.mem_takeWhile_imp hx,
    fun x hx => List.mem_takeWhile_imp (List.mem_reverse.mp hx)⟩
  have h1 : (s.dropWhile isSpace)
      = TrimSpace s ++ ((s.dropWhile isSpace).reverse.takeWhile isSpace).reverse := by
    unfold TrimSpace
    rw [← List.reverse_append, List.takeWhile_append_dropWhile, List.reverse_reverse]
  rw [List.append_assoc, ← h1, List.takeWhile_append_dropWhile]

/-- Trimming the text does not change whether its lower-case form contains a
needle free of white space. -/
theorem Contains_ToLower_TrimSpace (s n : List Char) (hn : n ≠ [])
    (hsp : ∀ c ∈ n, isSpace c = false) :
    Contains (ToLower (TrimSpace s)) n = Contains (ToLower s) n := by
  obtain ⟨A, B, hs, hA, hB⟩ := TrimSpace_decomposition s
  rw [Bool.eq_iff_iff, Contains_iff_infix, Contains_iff_infix]
  have hmap : ∀ L : List Char, (∀ x ∈ L, isSpace x = true) →
      ∀ y ∈ L.map toLowerRune, y ∉ n := by
    intro L hL y hy hyn
    obtain ⟨x, hx, rfl⟩ := List.mem_map.mp hy
    rw [toLowerRune_of_isSpace x (hL x hx)] at hyn
    have := hsp x hyn
    rw [hL x hx] at this
    exact Bool.noConfusion this
  have key := infix_append_iff_of_disjoint n (A.map toLowerRune) (ToLower (TrimSpace s))
    (B.map toLowerRune) hn (hmap A hA) (hmap B hB)
  have hlow : ToLower s = A.map toLowerRune ++ ToLower (TrimSpace s) ++ B.map toLowerRune := by
    conv_lhs => rw [hs]
    simp [ToLower]
  rw [hlow]
  exact key.symm

set_option maxRecDepth 100000 in
/-- C3: when the structured decoding fails, the success flag returned is
`true` exactly when `pass`, `success` or `true` is a contiguous part of the raw
text with its letters lowered; so `It fails` gives `false` and `NOT TRUE`
gives `true`.  The heuristic is not consulted when the decoding succeeds: the
flag is then the decoded one, as for the text `{"success": false,
"explanation": "all tests pass"}`. -/
theorem C3_heuristic_success (raw : String)
    (h : unmarshalJsonResp (TrimSpace raw.data) = none) :
    ((parseEvaluationResult raw).1 = true ↔
      ("pass".data <:+: raw.data.map toLowerRune ∨
        "success".data <:+: raw.data.map toLowerRune ∨
        "true".data <:+: raw.data.map toLowerRune)) ∧
    (∀ (other : String) (r : JsonResp), unmarshalJsonResp (TrimSpace other.data) = some r →
      (parseEvaluationResult other).1 = r.Success) ∧
    (parseEvaluationResult
      "\x7b\"success\": false, \"explanation\": \"all tests pass\"\x7d").1 = false ∧
    (unmarshalJsonResp (TrimSpace "It fails".data) = none ∧
      (parseEvaluationResult "It fails").1 = false) ∧
    (unmarshalJsonResp (TrimSpace "NOT TRUE".data) = none ∧
      (parseEvaluationResult "NOT TRUE").1 = true) := by
  refine ⟨?_, fun other r hr => by rw [parse_of_decoded other r hr], by decide, by decide,
    by decide⟩
  rw [parse_of_undecoded raw h]
  simp only [Bool.or_eq_true]
  rw [Contains_ToLower_TrimSpace raw.data "pass".data (by decide) (by decide),
    Contains_ToLower_TrimSpace raw.data "success".data (by decide) (by decide),
    Contains_ToLower_TrimSpace raw.data "true".data (by decide) (by decide),
    Contains_iff_infix, Contains_iff_infix, Contains_iff_infix]
  unfold ToLower
  tauto

set_option maxRecDepth 100000 in
/-- C3 at the raw texts `" It PASSES \n"`, where the decoding fails and the
flag is `true`, and `"It fails"`, where the decoding fails, none of the three
words occurs and the flag is `false`. -/
theorem C3_heuristic_success_witness :
    (unmarshalJsonResp (TrimSpace " It PASSES \n".data) = none ∧
      "pass".data <:+: " It PASSES \n".data.map toLowerRune ∧
      (parseEvaluationResult " It PASSES \n").1 = true) ∧
    (unmarshalJsonResp (TrimSpace "It fails".data) = none ∧
      ¬ ("pass".data <:+: "It fails".data.map toLowerRune ∨
        "success".data <:+: "It fails".data.map toLowerRune ∨
        "true".data <:+: "It fails".data.map toLowerRune) ∧
      (parseEvaluationResult "It fails").1 = false) :=
  ⟨⟨by decide, by decide,
      ((C3_heuristic_success " It PASSES \n" (by decide)).1).mpr (Or.inl (by decide))⟩,
    ⟨by decide, by decide,
      Bool.eq_false_iff.mpr (fun hf =>
        absurd (((C3_heuristic_success "It fails" (by decide)).1).mp hf) (by decide))⟩⟩

/-! ## The confidence heuristic -/

/-- The loop over the words returns the first valid token. -/
theorem scanWords_eq_findSome (words : List (List Char)) :
    scanWords words = words.findSome? validToken := by
  induction words with
  | nil => rfl
  | cons w ws ih =>
    rw [scanWords, List.findSome?_cons, validToken]
    cases hp : ParseFloat (Trim w ".,".data) with
    | none => simpa using ih
    | some val =>
      by_cases hr : (val.geZero && val.leOne) = true
      · simp [hr]
      · simp [hr, ih]

/-- One step of the loop over the lines. -/
theorem scanLines_cons (line : List Char) (lines : List (List Char)) (c : Option Float64) :
    scanLines (line :: lines) c =
      scanLines lines (match lineConfidence line with
        | some v => some v
        | none => c) := by
  rw [scanLines, lineConfidence]
  by_cases hc : Contains (ToLower line) "confidence".data = true
  · rw [if_pos hc, if_pos hc, scanWords_eq_findSome]
    cases (Fields line).findSome? validToken <;> rfl
  · rw [if_neg hc, if_neg hc]

/-- Lines that offer no confidence leave the variable as it is. -/
theorem scanLines_of_all_none (lines : List (List Char)) (c : Option Float64)
    (h : ∀ l ∈ lines, lineConfidence l = none) : scanLines lines c = c := by
  induction lines generalizing c with
  | nil => rfl
  | cons l ls ih =>
    rw [scanLines_cons, h l (List.mem_cons_self _ _)]
    exact ih c (fun x hx => h x (List.mem_cons_of_mem _ hx))

/-- The loop over the lines ends with a value as soon as the variable holds
one. -/
theorem scanLines_isSome (lines : List (List Char)) (v : Float64) :
    ∃ w, scanLines lines (some v) = some w := by
  induction lines generalizing v with
  | nil => exact ⟨v, rfl⟩
  | cons l ls ih =>
    rw [scanLines_cons]
    cases lineConfidence l with
    | none => exact ih v
    | some u => exact ih u

/-- The loop over the lines returns nothing exactly when no line offers a
confidence. -/
theorem scanLines_eq_none_iff (lines : List (List Char)) :
    scanLines lines none = none ↔ ∀ l ∈ lines, lineConfidence l = none := by
  constructor
  · intro h
    induction lines with
    | nil => intro l hl; cases hl
    | cons l ls ih =>
      rw [scanLines_cons] at h
      cases hl : lineConfidence l with
      | none =>
        rw [hl] at h
        intro x hx
        rcases List.mem_cons.mp hx with rfl | hx
        · exact hl
        · exact ih h x hx
      | some u =>
        rw [hl] at h
        obtain ⟨w, hw⟩ := scanLines_isSome ls u
        rw [hw] at h
        cases h
  · intro h
    exact scanLines_of_all_none lines none h

/-- When a line offers a confidence and no later line does, the loop over the
lines returns the offer of that line. -/
theorem scanLines_of_last (pre post : List (List Char)) (l : List Char) (v : Float64)
    (c : Option Float64) (hl : lineConfidence l = some v)
    (hpost : ∀ x ∈ post, lineConfidence x = none) :
    scanLines (pre ++ l :: post) c = some v := by
  induction pre generalizing c with
  | nil =>
    rw [List.nil_append, scanLines_cons, hl]
    exact scanLines_of_all_none post (some v) hpost
  | cons p ps ih =>
    rw [List.cons_append, scanLines_cons]
    exact ih _

set_option maxRecDepth 100000 in
/-- C4 (as stated, refuted).  On the raw text `confidence: high` / `confidence
0.5` (two lines) the decoding fails, the first line that contains
`confidence` holds no valid token, and yet the confidence returned is `0.5`,
read off the second line.  On the raw text `confidence .5` the decoding fails
and the token `.5`, which parses as the number `0.5` with nothing to strip at
its end, is not taken: the leading `.` is stripped too and `5` is out of
range, so the confidence is unset. -/
theorem C4_counterexample :
    unmarshalJsonResp (TrimSpace "confidence: high\nconfidence 0.5".data) = none ∧
    SplitLines (TrimSpace "confidence: high\nconfidence 0.5".data)
      = ["confidence: high".data, "confidence 0.5".data] ∧
    Contains (ToLower "confidence: high".data) "confidence".data = true ∧
    scanWords (Fields "confidence: high".data) = none ∧
    (parseEvaluationResult "confidence: high\nconfidence 0.5").2.2
      = some (Float64.finite false 4503599627370496 (-53)) ∧
    unmarshalJsonResp (TrimSpace "confidence .5".data) = none ∧
    Fields "confidence .5".data = ["confidence".data, ".5".data] ∧
    ParseFloat ".5".data = some (Float64.finite false 4503599627370496 (-53)) ∧
    (Float64.finite false 4503599627370496 (-53)).geZero = true ∧
    (Float64.finite false 4503599627370496 (-53)).leOne = true ∧
    (parseEvaluationResult "confidence .5").2.2 = none := by
  decide

set_option maxRecDepth 100000 in
/-- C4 (amended).  When the structured decoding fails, the confidence is read
off the lines of the trimmed text that contain `confidence` in any case; what
such a line offers is its first white-space-separated token that, its leading
and trailing `.` and `,` stripped, parses as a number in `[0,1]`.  The
confidence is unset exactly when no line offers one, and when exactly one
line offers one it is that offer.  The raw text `SUCCESS` gives success `true`
and no confidence. -/
theorem C4_heuristic_confidence (raw : String)
    (h : unmarshalJsonResp (TrimSpace raw.data) = none) :
    ((parseEvaluationResult raw).2.2 = none ↔
      ∀ l ∈ SplitLines (TrimSpace raw.data), lineConfidence l = none) ∧
    (∀ (pre post : List (List Char)) (l : List Char) (v : Float64),
      SplitLines (TrimSpace raw.data) = pre ++ l :: post →
      lineConfidence l = some v →
      (∀ x ∈ pre, lineConfidence x = none) → (∀ x ∈ post, lineConfidence x = none) →
      (parseEvaluationResult raw).2.2 = some v) ∧
    ((parseEvaluationResult "SUCCESS").1 = true ∧ (parseEvaluationResult "SUCCESS").2.2 = none) := by
  rw [parse_of_undecoded raw h]
  refine ⟨scanLines_eq_none_iff _, ?_, by decide⟩
  intro pre post l v hs hl _ hpost
  show scanLines (SplitLines (TrimSpace raw.data)) none = some v
  rw [hs]
  exact scanLines_of_last pre post l v none hl hpost

set_option maxRecDepth 100000 in
/-- C4 (amended) at a text of three lines of which only the last offers a
confidence, `0.25`. -/
theorem C4_heuristic_confidence_witness :
    unmarshalJsonResp
      (TrimSpace "No.\nconfidence: high\nConfidence is 0.25, roughly.".data) = none ∧
    (parseEvaluationResult "No.\nconfidence: high\nConfidence is 0.25, roughly.").2.2
      = some (Float64.finite false 4503599627370496 (-54)) :=
  ⟨by decide,
    (C4_heuristic_confidence "No.\nconfidence: high\nConfidence is 0.25, roughly."
      (by decide)).2.1 ["No.".data, "confidence: high".data] []
      "Confidence is 0.25, roughly.".data (Float64.finite false 4503599627370496 (-54))
      (by decide) (by decide) (by decide) (by decide)⟩

/-! ## The handler -/

/-- The ceiling as a number. -/
theorem MaxPayloadSize_eq : MaxPayloadSize = 1048576 := by decide

/-- A failing judge call makes `EvaluateRequest` return an error. -/
theorem EvaluateRequest_of_failure (net : String → Exchange) (req : EvaluateRequest)
    (h : JudgeFailure (net (buildPrompt req))) :
    ∃ err, EvaluationService.EvaluateRequest net req = .error err := by
  unfold EvaluationService.EvaluateRequest CallLLM
  cases hx : net (buildPrompt req) with
  | doError err => exact ⟨_, rfl⟩
  | response statusCode body decode =>
    rw [hx] at h
    dsimp only
    by_cases hc : statusCode ≠ 200
    · rw [if_pos hc]
      exact ⟨_, rfl⟩
    · rw [if_neg hc]
      cases decode with
      | error err => exact ⟨_, rfl⟩
      | ok resp =>
        have hch : resp.Choices = [] := by
          rcases h with h | h
          · exact absurd h hc
          · exact h
        exact ⟨"no response from evaluation service", by simp [hch]⟩

/-- A judge call that does not fail makes `EvaluateRequest` return a
verdict. -/
theorem EvaluateRequest_of_success (net : String → Exchange) (req : EvaluateRequest)
    (h : ¬ JudgeFailure (net (buildPrompt req))) :
    ∃ v, EvaluationService.EvaluateRequest net req = .ok v := by
  unfold EvaluationService.EvaluateRequest CallLLM
  cases hx : net (buildPrompt req) with
  | doError err => rw [hx] at h; exact absurd trivial h
  | response statusCode body decode =>
    rw [hx] at h
    simp only [JudgeFailure, not_or, not_not] at h
    obtain ⟨hc, hd⟩ := h
    cases decode with
    | error err => exact absurd trivial hd
    | ok resp =>
      dsimp only
      rw [if_neg (not_not.mpr hc)]
      cases hch : resp.Choices with
      | nil => exact absurd hch hd
      | cons c cs =>
        exact ⟨{ Success := (parseEvaluationResult c.Message.Content).1
                 Explanation := (parseEvaluationResult c.Message.Content).2.1
                 Confidence := (parseEvaluationResult c.Message.Content).2.2 },
          by simp [hch]⟩

/-- What the handler does with a request that reaches the judge call. -/
theorem Handle_of_reaches (s : EvaluationService) (net : String → Exchange) (r : HttpRequest)
    (req : EvaluateRequest) (h : ReachesJudge s r req) :
    Handle s true net r =
      (match EvaluationService.EvaluateRequest net req with
        | .error _ =>
          (sendErrorResponse 503 "LLM_SERVICE_ERROR" "Evaluation service temporarily unavailable",
            [buildPrompt req])
        | .ok response => ({ StatusCode := 200, Body := .verdict response }, [buildPrompt req])) := by
  obtain ⟨h1, h2, h3, h4, h5⟩ := h
  unfold Handle
  simp only [Bool.not_true, Bool.false_eq_true, if_false, h1, h2, h3, h4, h5]

/-- C8: for every request that reaches the judge call and any two failures
of that call, whatever their kind, the response of the handler is the same:
status `503`, code `LLM_SERVICE_ERROR` and the fixed message. -/
theorem C8_no_leak_of_judge_failures (s : EvaluationService) (r : HttpRequest)
    (req : EvaluateRequest) (net1 net2 : String → Exchange) (hr : ReachesJudge s r req)
    (h1 : JudgeFailure (net1 (buildPrompt req))) (h2 : JudgeFailure (net2 (buildPrompt req))) :
    (Handle s true net1 r).1
      = sendErrorResponse 503 "LLM_SERVICE_ERROR" "Evaluation service temporarily unavailable" ∧
    (Handle s true net1 r).1 = (Handle s true net2 r).1 := by
  obtain ⟨e1, he1⟩ := EvaluateRequest_of_failure net1 req h1
  obtain ⟨e2, he2⟩ := EvaluateRequest_of_failure net2 req h2
  rw [Handle_of_reaches s net1 r req hr, Handle_of_reaches s net2 r req hr, he1, he2]
  exact ⟨rfl, rfl⟩

/-- C8 at the example request with a transport error and with a status
`500`: the two internal errors differ, the two responses do not. -/
theorem C8_no_leak_of_judge_failures_witness :
    ReachesJudge { minPayloadSize := 0 } exampleRequest exampleDecoded ∧
    EvaluationService.EvaluateRequest (fun _ => Exchange.doError "dial tcp: i/o timeout")
        exampleDecoded
      = .error "LLM service error: failed to make request: dial tcp: i/o timeout" ∧
    EvaluationService.EvaluateRequest
        (fun _ => Exchange.response 500 "upstream failure" (.error "")) exampleDecoded
      = .error "LLM service error: OpenRouter API error (status 500): upstream failure" ∧
    (Handle { minPayloadSize := 0 } true (fun _ => Exchange.doError "dial tcp: i/o timeout")
        exampleRequest).1
      = (Handle { minPayloadSize := 0 } true
        (fun _ => Exchange.response 500 "upstream failure" (.error "")) exampleRequest).1 :=
  ⟨⟨by decide, rfl, by decide, by decide, by decide⟩, rfl, rfl,
    (C8_no_leak_of_judge_failures { minPayloadSize := 0 } exampleRequest exampleDecoded
      (fun _ => Exchange.doError "dial tcp: i/o timeout")
      (fun _ => Exchange.response 500 "upstream failure" (.error ""))
      ⟨by decide, rfl, by decide, by decide, by decide⟩ trivial (Or.inl (by decide))).2⟩

/-- A size within the floor and the ceiling passes the size step. -/
theorem sizeCheck_of_within (s : EvaluationService) (n : Int) (h1 : s.minPayloadSize ≤ n)
    (h2 : n ≤ 1048576) : sizeCheck s n = none := by
  simp [sizeCheck, ValidatePayloadSize, MaxPayloadSize_eq, not_lt.mpr h1, not_lt.mpr h2]

/-- A size above the ceiling is answered `413` by the size step. -/
theorem sizeCheck_of_large (s : EvaluationService) (n : Int) (h : n > 1048576) :
    ∃ msg, sizeCheck s n = some (sendErrorResponse 413 "PAYLOAD_TOO_LARGE" msg) := by
  simp only [sizeCheck, ValidatePayloadSize, MaxPayloadSize_eq]
  split_ifs <;> simp_all

/-- A size below the floor and within the ceiling is answered `400` by the
size step. -/
theorem sizeCheck_of_small (s : EvaluationService) (n : Int) (h1 : n < s.minPayloadSize)
    (h2 : n ≤ 1048576) :
    sizeCheck s n
      = some (sendErrorResponse 400 "PAYLOAD_TOO_SMALL" (tooSmallMessage s.minPayloadSize)) := by
  simp [sizeCheck, ValidatePayloadSize, MaxPayloadSize_eq, h1, not_lt.mpr h2]

/-- The size step passes only sizes within the floor and the ceiling. -/
theorem within_of_sizeCheck (s : EvaluationService) (n : Int) (h : sizeCheck s n = none) :
    s.minPayloadSize ≤ n ∧ n ≤ 1048576 := by
  simp only [sizeCheck, ValidatePayloadSize, MaxPayloadSize_eq] at h
  split_ifs at h
  all_goals simp_all

/-- The length the handler sees is the length of the body up to the ceiling. -/
theorem readLen_of_le (r : HttpRequest) (h : (utf8Len r.Body : Int) ≤ 1048576) :
    readLen r = (utf8Len r.Body : Int) := by
  simp only [readLen, MaxPayloadSize_eq]
  omega

/-- A body above the ceiling is seen as above the ceiling. -/
theorem readLen_of_gt (r : HttpRequest) (h : (utf8Len r.Body : Int) > 1048576) :
    readLen r > 1048576 := by
  simp only [readLen, MaxPayloadSize_eq]
  omega

set_option maxRecDepth 100000 in
/-- C7 (as stated, refuted): in the default configuration the body of the
example has 65 bytes, fewer than the floor of 1024, and the handler answers
`400 PAYLOAD_TOO_SMALL` although the rate limiter admits the request and the
judge model returns the content of the example. -/
theorem C7_counterexample :
    (NewEvaluationService "").minPayloadSize = 1024 ∧
    utf8Len exampleBody.data = 65 ∧
    (Handle (NewEvaluationService "") true exampleJudge exampleRequest).1
      = sendErrorResponse 400 "PAYLOAD_TOO_SMALL" (tooSmallMessage 1024) ∧
    (Handle (NewEvaluationService "") true exampleJudge exampleRequest).1.StatusCode ≠ 200 := by
  have hs : NewEvaluationService "" = { minPayloadSize := 1024 } := by decide
  have hl : readLen exampleRequest = 65 := by decide
  rw [hs]
  have hh : (Handle { minPayloadSize := 1024 } true exampleJudge exampleRequest).1
      = sendErrorResponse 400 "PAYLOAD_TOO_SMALL" (tooSmallMessage 1024) := by
    unfold Handle
    rw [hl, sizeCheck_of_small _ 65 (by decide) (by decide)]
    rfl
  refine ⟨rfl, by decide, hh, ?_⟩
  rw [hh]
  decide

set_option maxRecDepth 100000 in
/-- C7 (amended): when the payload floor is at most the 65 bytes of the body
(as with `MIN_PAYLOAD_SIZE=0`), the rate limiter admits the request and the
judge model returns the content of the example as its first choice, the
handler answers `200` with success `true`, the explanation `4 is correct` and
the `float64` nearest to `0.95`, after one call of the judge model. -/
theorem C7_end_to_end (s : EvaluationService) (net : String → Exchange) (body role : String)
    (rest : List Choice) (usage : Usage) (hmin : s.minPayloadSize ≤ 65)
    (hnet : net (buildPrompt exampleDecoded) = Exchange.response 200 body
      (.ok { Choices := { Message := { Role := role, Content := exampleContent } } :: rest
             Usage := usage })) :
    Handle s true net exampleRequest
      = ({ StatusCode := 200
           Body := .verdict { Success := true, Explanation := "4 is correct"
                              Confidence := some (Float64.finite false 8556839292003942 (-53)) } },
          [buildPrompt exampleDecoded]) ∧
    |(Float64.finite false 8556839292003942 (-53)).toRat - 95 / 100| ≤ 1 / 2 ^ 54 := by
  have hl : readLen exampleRequest = 65 := by decide
  have hr : ReachesJudge s exampleRequest exampleDecoded :=
    ⟨by decide, rfl, by rw [hl]; exact sizeCheck_of_within s 65 hmin (by decide), by decide,
      by decide⟩
  have hp : parseEvaluationResult exampleContent
      = (true, "4 is correct", some (Float64.finite false 8556839292003942 (-53))) := by decide
  refine ⟨?_, ?_⟩
  · rw [Handle_of_reaches s net exampleRequest exampleDecoded hr]
    unfold EvaluationService.EvaluateRequest CallLLM
    rw [hnet]
    simp [hp]
  · rw [abs_le]
    norm_num [Float64.toRat]

set_option maxRecDepth 100000 in
/-- C7 (amended) with the floor set by `MIN_PAYLOAD_SIZE=0` and a judge that
returns the content of the example. -/
theorem C7_end_to_end_witness :
    (NewEvaluationService "0").minPayloadSize ≤ 65 ∧
    (Handle (NewEvaluationService "0") true exampleJudge exampleRequest).1.StatusCode = 200 :=
  ⟨by decide,
    by rw [(C7_end_to_end (NewEvaluationService "0") exampleJudge "" "assistant" []
      { TotalTokens := 0 } (by decide) rfl).1]⟩

/-- A request with an empty field is refused by `ValidateRequest`. -/
theorem ValidateRequest_of_empty (req : EvaluateRequest)
    (h : req.Input = "" ∨ req.Output = "" ∨ req.Criteria = "") :
    ∃ msg, ValidateRequest req = some msg := by
  unfold ValidateRequest
  split_ifs with h1 h2 h3
  · exact ⟨_, rfl⟩
  · exact ⟨_, rfl⟩
  · exact ⟨_, rfl⟩
  · rcases h with h | h | h
    · exact absurd h h1
    · exact absurd h h2
    · exact absurd h h3

/-- A request with three non-empty fields passes `ValidateRequest`, and only
such a request does. -/
theorem ValidateRequest_eq_none_iff (req : EvaluateRequest) :
    ValidateRequest req = none ↔ req.Input ≠ "" ∧ req.Output ≠ "" ∧ req.Criteria ≠ "" := by
  unfold ValidateRequest
  split_ifs with h1 h2 h3
  all_goals simp_all

/-- What the size step writes is an error response. -/
theorem sizeCheck_some_form (s : EvaluationService) (n : Int) (resp : HttpResponse)
    (h : sizeCheck s n = some resp) :
    ∃ c e m, resp = sendErrorResponse c e m := by
  unfold sizeCheck at h
  split at h
  · split_ifs at h
    · exact ⟨_, _, _, (Option.some.inj h).symm⟩
    · exact ⟨_, _, _, (Option.some.inj h).symm⟩
  · cases h

/-- The handler past its first three tests, on a request whose size is
refused. -/
theorem Handle_of_size_refused (s : EvaluationService) (net : String → Exchange)
    (r : HttpRequest) (resp : HttpResponse) (hcl : ¬ r.ContentLength > MaxPayloadSize)
    (hb : r.BodyError = false) (hsz : sizeCheck s (readLen r) = some resp) :
    Handle s true net r = (resp, []) := by
  unfold Handle
  simp only [Bool.not_true, Bool.false_eq_true, if_false, hcl, hb, hsz]

/-- The handler past the size step, on a body that does not decode. -/
theorem Handle_of_undecodable (s : EvaluationService) (net : String → Exchange)
    (r : HttpRequest) (hcl : ¬ r.ContentLength > MaxPayloadSize)
    (hb : r.BodyError = false) (hsz : sizeCheck s (readLen r) = none)
    (hj : unmarshalRequest r.Body = none) :
    Handle s true net r = (sendErrorResponse 400 "INVALID_JSON" "Invalid JSON format", []) := by
  unfold Handle
  simp only [Bool.not_true, Bool.false_eq_true, if_false, hcl, hb, hsz, hj]

/-- The handler past the decoding, on a request that is not valid. -/
theorem Handle_of_invalid (s : EvaluationService) (net : String → Exchange)
    (r : HttpRequest) (req : EvaluateRequest) (msg : String)
    (hcl : ¬ r.ContentLength > MaxPayloadSize)
    (hb : r.BodyError = false) (hsz : sizeCheck s (readLen r) = none)
    (hj : unmarshalRequest r.Body = some req) (hv : ValidateRequest req = some msg) :
    Handle s true net r = (sendErrorResponse 400 "VALIDATION_ERROR" msg, []) := by
  unfold Handle
  simp only [Bool.not_true, Bool.false_eq_true, if_false, hcl, hb, hsz, hj, hv]

/-- Every response of the handler is an error response written by
`sendErrorResponse` or a `200` with a verdict; and the judge model is called
only for a request that reaches the judge call. -/
theorem Handle_form (s : EvaluationService) (allow : Bool) (net : String → Exchange)
    (r : HttpRequest) :
    ((∃ c e m, (Handle s allow net r).1 = sendErrorResponse c e m) ∨
      (∃ v, (Handle s allow net r).1 = { StatusCode := 200, Body := .verdict v })) ∧
    ((Handle s allow net r).2 ≠ [] →
      allow = true ∧ ∃ req, ReachesJudge s r req ∧ (Handle s allow net r).2 = [buildPrompt req]) := by
  cases allow with
  | false => exact ⟨Or.inl ⟨_, _, _, rfl⟩, fun h => absurd rfl h⟩
  | true =>
    by_cases hcl : r.ContentLength > MaxPayloadSize
    · have : Handle s true net r = (sendErrorResponse 413 "PAYLOAD_TOO_LARGE"
          ("Payload size exceeds maximum of " ++ toString MaxPayloadSize ++ " bytes"), []) := by
        unfold Handle
        simp only [Bool.not_true, Bool.false_eq_true, if_false, hcl, if_true]
      rw [this]
      exact ⟨Or.inl ⟨_, _, _, rfl⟩, fun h => absurd rfl h⟩
    · cases hb : r.BodyError with
      | true =>
        have : Handle s true net r
            = (sendErrorResponse 400 "INVALID_REQUEST" "Failed to read request body", []) := by
          unfold Handle
          simp only [Bool.not_true, Bool.false_eq_true, if_false, hcl, hb, if_true]
        rw [this]
        exact ⟨Or.inl ⟨_, _, _, rfl⟩, fun h => absurd rfl h⟩
      | false =>
        cases hsz : sizeCheck s (readLen r) with
        | some resp =>
          rw [Handle_of_size_refused s net r resp hcl hb hsz]
          exact ⟨Or.inl (sizeCheck_some_form s _ resp hsz), fun h => absurd rfl h⟩
        | none =>
          cases hj : unmarshalRequest r.Body with
          | none =>
            rw [Handle_of_undecodable s net r hcl hb hsz hj]
            exact ⟨Or.inl ⟨_, _, _, rfl⟩, fun h => absurd rfl h⟩
          | some req =>
            cases hv : ValidateRequest req with
            | some msg =>
              rw [Handle_of_invalid s net r req msg hcl hb hsz hj hv]
              exact ⟨Or.inl ⟨_, _, _, rfl⟩, fun h => absurd rfl h⟩
            | none =>
              have hr : ReachesJudge s r req := ⟨hcl, hb, hsz, hj, hv⟩
              rw [Handle_of_reaches s net r req hr]
              cases EvaluationService.EvaluateRequest net req with
              | error err => exact ⟨Or.inl ⟨_, _, _, rfl⟩, fun _ => ⟨rfl, req, hr, rfl⟩⟩
              | ok v => exact ⟨Or.inr ⟨v, rfl⟩, fun _ => ⟨rfl, req, hr, rfl⟩⟩

set_option maxRecDepth 100000 in
/-- C10 (as stated, refuted): a request that the rate limiter admits, with a
declared length of 2000 bytes, whose body breaks off with an error after 65
bytes, is answered `400 INVALID_REQUEST`, which is none of the outcomes the
claim lists; by the listed checks its 65 bytes, below the default floor of
1024, would make it `400 PAYLOAD_TOO_SMALL`. -/
theorem C10_counterexample :
    (Handle (NewEvaluationService "") true exampleJudge
        { ContentLength := 2000, Body := exampleBody.data, BodyError := true }).1
      = sendErrorResponse 400 "INVALID_REQUEST" "Failed to read request body" ∧
    (Handle (NewEvaluationService "") true exampleJudge
        { ContentLength := 2000, Body := exampleBody.data, BodyError := true }).1
      ≠ sendErrorResponse 400 "PAYLOAD_TOO_SMALL" (tooSmallMessage 1024) ∧
    "INVALID_REQUEST" ∉ ["RATE_LIMIT_EXCEEDED", "PAYLOAD_TOO_LARGE", "PAYLOAD_TOO_SMALL",
      "INVALID_JSON", "VALIDATION_ERROR", "LLM_SERVICE_ERROR"] := by
  have hh : (Handle (NewEvaluationService "") true exampleJudge
        { ContentLength := 2000, Body := exampleBody.data, BodyError := true }).1
      = sendErrorResponse 400 "INVALID_REQUEST" "Failed to read request body" := by
    decide
  refine ⟨hh, ?_, by decide⟩
  rw [hh]
  intro h
  have h1 := congrArg (fun x : HttpResponse =>
    match x.Body with
    | .error e => e.Error
    | .verdict _ => "") h
  revert h1
  decide

/-- C10 (amended): the response of the handler is decided by the first
failing check in this order: the rate limiter denies, `429
RATE_LIMIT_EXCEEDED`; the declared length exceeds 1,048,576, `413
PAYLOAD_TOO_LARGE`; the body cannot be read, `400 INVALID_REQUEST`; the body
exceeds 1,048,576 bytes, `413 PAYLOAD_TOO_LARGE`; the body is shorter than the
floor, `400 PAYLOAD_TOO_SMALL`; `json.Unmarshal` of the body fails, `400
INVALID_JSON`; input, output or criteria is empty, `400 VALIDATION_ERROR`; the
judge call fails, `503 LLM_SERVICE_ERROR`; otherwise `200` with a verdict.
Every error body carries the status in its `code`, and the judge model is
called only when all the earlier checks pass. -/
theorem C10_classification_order (s : EvaluationService) (allow : Bool)
    (net : String → Exchange) (r : HttpRequest) :
    (allow = false → (Handle s allow net r).1
      = sendErrorResponse 429 "RATE_LIMIT_EXCEEDED" "Too many requests, please try again later") ∧
    (allow = true → r.ContentLength > 1048576 → (Handle s allow net r).1
      = sendErrorResponse 413 "PAYLOAD_TOO_LARGE"
          ("Payload size exceeds maximum of " ++ toString MaxPayloadSize ++ " bytes")) ∧
    (allow = true → r.ContentLength ≤ 1048576 → r.BodyError = true → (Handle s allow net r).1
      = sendErrorResponse 400 "INVALID_REQUEST" "Failed to read request body") ∧
    (allow = true → r.ContentLength ≤ 1048576 → r.BodyError = false →
      (utf8Len r.Body : Int) > 1048576 →
      ∃ msg, (Handle s allow net r).1 = sendErrorResponse 413 "PAYLOAD_TOO_LARGE" msg) ∧
    (allow = true → r.ContentLength ≤ 1048576 → r.BodyError = false →
      (utf8Len r.Body : Int) ≤ 1048576 → (utf8Len r.Body : Int) < s.minPayloadSize →
      (Handle s allow net r).1
        = sendErrorResponse 400 "PAYLOAD_TOO_SMALL" (tooSmallMessage s.minPayloadSize)) ∧
    (allow = true → r.ContentLength ≤ 1048576 → r.BodyError = false →
      (utf8Len r.Body : Int) ≤ 1048576 → s.minPayloadSize ≤ (utf8Len r.Body : Int) →
      unmarshalRequest r.Body = none →
      (Handle s allow net r).1 = sendErrorResponse 400 "INVALID_JSON" "Invalid JSON format") ∧
    (∀ req, allow = true → r.ContentLength ≤ 1048576 → r.BodyError = false →
      (utf8Len r.Body : Int) ≤ 1048576 → s.minPayloadSize ≤ (utf8Len r.Body : Int) →
      unmarshalRequest r.Body = some req →
      (req.Input = "" ∨ req.Output = "" ∨ req.Criteria = "") →
      ∃ msg, (Handle s allow net r).1 = sendErrorResponse 400 "VALIDATION_ERROR" msg) ∧
    (∀ req, allow = true → r.ContentLength ≤ 1048576 → r.BodyError = false →
      (utf8Len r.Body : Int) ≤ 1048576 → s.minPayloadSize ≤ (utf8Len r.Body : Int) →
      unmarshalRequest r.Body = some req →
      req.Input ≠ "" → req.Output ≠ "" → req.Criteria ≠ "" →
      (JudgeFailure (net (buildPrompt req)) → (Handle s allow net r).1
        = sendErrorResponse 503 "LLM_SERVICE_ERROR" "Evaluation service temporarily unavailable") ∧
      (¬ JudgeFailure (net (buildPrompt req)) →
        ∃ v, (Handle s allow net r).1 = { StatusCode := 200, Body := .verdict v })) ∧
    (∀ e, (Handle s allow net r).1.Body = .error e →
      e.Code = (Handle s allow net r).1.StatusCode) ∧
    ((Handle s allow net r).2 ≠ [] →
      allow = true ∧ r.ContentLength ≤ 1048576 ∧ r.BodyError = false ∧
      s.minPayloadSize ≤ (utf8Len r.Body : Int) ∧ (utf8Len r.Body : Int) ≤ 1048576 ∧
      ∃ req, unmarshalRequest r.Body = some req ∧
        req.Input ≠ "" ∧ req.Output ≠ "" ∧ req.Criteria ≠ "" ∧
        (Handle s allow net r).2 = [buildPrompt req]) := by
  have hcl_of : r.ContentLength ≤ 1048576 → ¬ r.ContentLength > MaxPayloadSize := by
    intro h
    rw [MaxPayloadSize_eq]
    exact not_lt.mpr h
  have hreach : ∀ req, r.ContentLength ≤ 1048576 → r.BodyError = false →
      (utf8Len r.Body : Int) ≤ 1048576 → s.minPayloadSize ≤ (utf8Len r.Body : Int) →
      unmarshalRequest r.Body = some req →
      req.Input ≠ "" → req.Output ≠ "" → req.Criteria ≠ "" → ReachesJudge s r req := by
    intro req h1 h2 h3 h4 h5 h6 h7 h8
    refine ⟨hcl_of h1, h2, ?_, h5, (ValidateRequest_eq_none_iff req).mpr ⟨h6, h7, h8⟩⟩
    rw [readLen_of_le r h3]
    exact sizeCheck_of_within s _ h4 h3
  refine ⟨?_, ?_, ?_, ?_, ?_, ?_, ?_, ?_, ?_, ?_⟩
  · intro ha
    subst ha
    rfl
  · intro ha hcl
    subst ha
    unfold Handle
    simp only [Bool.not_true, Bool.false_eq_true, if_false, MaxPayloadSize_eq, hcl, if_true]
  · intro ha hcl hb
    subst ha
    unfold Handle
    simp only [Bool.not_true, Bool.false_eq_true, if_false, hcl_of hcl, hb, if_true]
  · intro ha hcl hb hlen
    subst ha
    obtain ⟨msg, hmsg⟩ := sizeCheck_of_large s (readLen r) (readLen_of_gt r hlen)
    exact ⟨msg, by rw [Handle_of_size_refused s net r _ (hcl_of hcl) hb hmsg]⟩
  · intro ha hcl hb hlen hmin
    subst ha
    have hsz := sizeCheck_of_small s (readLen r) (by rw [readLen_of_le r hlen]; exact hmin)
      (by rw [readLen_of_le r hlen]; exact hlen)
    rw [Handle_of_size_refused s net r _ (hcl_of hcl) hb hsz]
  · intro ha hcl hb hlen hmin hj
    subst ha
    have hsz : sizeCheck s (readLen r) = none := by
      rw [readLen_of_le r hlen]
      exact sizeCheck_of_within s _ hmin hlen
    rw [Handle_of_undecodable s net r (hcl_of hcl) hb hsz hj]
  · intro req ha hcl hb hlen hmin hj hempty
    subst ha
    have hsz : sizeCheck s (readLen r) = none := by
      rw [readLen_of_le r hlen]
      exact sizeCheck_of_within s _ hmin hlen
    obtain ⟨msg, hmsg⟩ := ValidateRequest_of_empty req hempty
    exact ⟨msg, by rw [Handle_of_invalid s net r req msg (hcl_of hcl) hb hsz hj hmsg]⟩
  · intro req ha hcl hb hlen hmin hj h6 h7 h8
    subst ha
    have hr := hreach req hcl hb hlen hmin hj h6 h7 h8
    rw [Handle_of_reaches s net r req hr]
    constructor
    · intro hf
      obtain ⟨err, herr⟩ := EvaluateRequest_of_failure net req hf
      rw [herr]
    · intro hf
      obtain ⟨v, hv⟩ := EvaluateRequest_of_success net req hf
      exact ⟨v, by rw [hv]⟩
  · intro e he
    rcases (Handle_form s allow net r).1 with ⟨c, code, m, h⟩ | ⟨v, h⟩
    · rw [h] at he ⊢
      simp only [sendErrorResponse, ResponseBody.error.injEq] at he
      rw [← he]
      rfl
    · rw [h] at he
      cases he
  · intro hne
    obtain ⟨ha, req, hr, hcalls⟩ := (Handle_form s allow net r).2 hne
    obtain ⟨h1, h2, h3, h4, h5⟩ := hr
    have hw := within_of_sizeCheck s _ h3
    have hle : (utf8Len r.Body : Int) ≤ 1048576 := by
      have := hw.2
      simp only [readLen, MaxPayloadSize_eq] at this
      omega
    rw [readLen_of_le r hle] at hw
    have hv := (ValidateRequest_eq_none_iff req).mp h5
    refine ⟨ha, ?_, h2, hw.1, hle, req, h4, hv.1, hv.2.1, hv.2.2, hcalls⟩
    rw [MaxPayloadSize_eq] at h1
    exact not_lt.mp h1

end EvalSvc
